import Mathlib

/-!
Verification of the skritto repository: a reader for the Guild Wars 2 `.dat`
packed-archive container with its custom LZ77+Huffman decompressor.

The Go source is shallowly embedded:
* machine integers (`uint8/uint16/uint32`) are modelled as `Nat` with explicit
  reduction modulo `2^8 / 2^16 / 2^32` at the operations where Go wraps;
* Go's defined behaviour of shifts with a count at least the operand width
  (result `0`) is modelled explicitly;
* fallible control flow is an `Except Fail` value.  The Go program has three
  distinct failure channels, which the `Fail` type keeps apart:
  `Fail.err` is a Go `error` VALUE returned to the caller, while `Fail.crash`
  is a process abort: `log.Fatal`, `os.Exit(1)`, or a runtime panic from an
  out-of-bounds slice/array index.  A `crash` never delivers an error value
  to the calling code;
* Go loops become fuel recursion; `Crash.fuelExhausted` is the embedding's
  marker for running out of fuel (the source loops either terminate or, for
  a cyclic working-code table, diverge) and is never produced on the concrete
  inputs evaluated below.
-/

set_option maxRecDepth 100000

namespace Skritto

/-- `2^32`, the modulus of Go's `uint32` arithmetic. -/
def M32 : Nat := 4294967296

/-- `2^16`, the modulus of Go's `uint16` arithmetic. -/
def M16 : Nat := 65536

/-- uint32 truncation. -/
def mask32 (n : Nat) : Nat := n % M32

/-- Go `uint32` left shift: a count of 32 or more yields 0. -/
def shl32 (a k : Nat) : Nat := if k ≥ 32 then 0 else (a <<< k) % M32

/-- Go `uint32` subtraction (wraparound). Both arguments are first truncated. -/
def sub32 (a b : Nat) : Nat := (a % M32 + M32 - b % M32) % M32

/-- Go `uint32` addition (wraparound). -/
def add32 (a b : Nat) : Nat := (a + b) % M32

/-- Go `uint16` subtraction (wraparound). -/
def sub16 (a b : Nat) : Nat := (a % M16 + M16 - b % M16) % M16

/-- Go conversion `int16(x)` of a `uint16` value `x`. -/
def toInt16 (n : Nat) : Int := if n % M16 < 32768 then (n % M16 : Int) else (n % M16 : Int) - 65536

/-- Go conversion `uint16(x)` of an `int16` value `x` (two's complement). -/
def int16ToU16 (s : Int) : Nat := (s % 65536).toNat

/-- Process aborts: `log.Fatal`, `os.Exit(1)` and runtime panics.  These do
not return an error value to the caller; the process dies. -/
inductive Crash where
  /-- `log.Fatal` in `pullByte`: pulling while 32 bits are available. -/
  | pullWhileFull
  /-- `log.Fatal` in `pullByte`: reached end of input. -/
  | pullPastEnd
  /-- `log.Fatal` in `needBits`: needing more than 32 bits. -/
  | needTooMany
  /-- `log.Fatal` in `dropBits`: dropping more than 32 bits. -/
  | dropTooMany
  /-- `log.Fatal` in `dropBits`: dropping more bits than available. -/
  | dropMoreThanHave
  /-- `log.Fatal` in `readCode`: reading from an empty Huffman tree. -/
  | emptyTree
  /-- `os.Exit(1)` in `inflateData`: invalid value for the writeSize code. -/
  | exitWriteSize
  /-- `os.Exit(1)` in `inflateData`: invalid value for the writeOffset code. -/
  | exitWriteOffset
  /-- Go runtime panic: slice or array index out of range. -/
  | indexOutOfRange
  /-- Fuel exhaustion marker of the embedding (models divergence). -/
  | fuelExhausted
  deriving DecidableEq, Repr

/-- Go `error` values actually returned to the caller. -/
inductive GoErr where
  /-- `convertU8ToU32`: input size is not a multiple of 4. -/
  | inputNotMultipleOf4
  /-- `inflateBuffer`: huffman tree empty. -/
  | huffmanTreeEmpty
  /-- `extractMFTData`: MFT entry not found. -/
  | notFound
  /-- `loadDatFile`: invalid MFT header magic number. -/
  | invalidMagic
  deriving DecidableEq, Repr

/-- Combined failure channel of the embedding. -/
inductive Fail where
  | err (e : GoErr)
  | crash (c : Crash)
  deriving DecidableEq, Repr

/-- Decidable equality for `Except` results, so concrete runs can be settled
by `decide`. -/
instance {ε α : Type} [DecidableEq ε] [DecidableEq α] : DecidableEq (Except ε α) :=
  fun a b =>
    match a, b with
    | .error x, .error y => decidable_of_iff (x = y) (by simp)
    | .ok x, .ok y => decidable_of_iff (x = y) (by simp)
    | .error _, .ok _ => isFalse (fun h => Except.noConfusion h)
    | .ok _, .error _ => isFalse (fun h => Except.noConfusion h)

/-- The decompressor `State` structure (the unused `Empty` flag of the source
is omitted; nothing reads or writes it). -/
structure State where
  inputData : List Nat
  inputSize : Nat
  inputPosition : Nat
  head : Nat
  bits : Nat
  buffer : Nat
  deriving DecidableEq, Repr

/-- `BlockSize = 0x4000` words. -/
def BlockSize : Nat := 0x4000

/-- `MAX_SYMBOL_VALUE = 285`. -/
def MAX_SYMBOL_VALUE : Nat := 285

/-- `MAX_CODE_BITS_LENGTH = 32`. -/
def MAX_CODE_BITS_LENGTH : Nat := 32

/-- The conditional extra increment of the word cursor in `pullByte`:
`if (InputPosition+1) % BlockSize == 0 { InputPosition++ }`. -/
def advanceCursor (p : Nat) : Nat := if (p + 1) % BlockSize = 0 then p + 1 else p

/-- `pullByte` pulls one 32-bit word from the input.  Mirrors the source:
the guard against 32 available bits, the block-boundary cursor skip of
`advanceCursor`, the end-of-input guard, and the head/buffer update. -/
def pullByte (s : State) : Except Fail State :=
  if s.bits ≥ 32 then .error (.crash .pullWhileFull)
  else if advanceCursor s.inputPosition ≥ s.inputSize then .error (.crash .pullPastEnd)
  else if advanceCursor s.inputPosition ≥ s.inputData.length then
    .error (.crash .indexOutOfRange)
  else if s.bits = 0 then
    .ok { s with head := s.inputData.getD (advanceCursor s.inputPosition) 0, buffer := 0,
                 bits := s.bits + 32, inputPosition := advanceCursor s.inputPosition + 1 }
  else
    .ok { s with
          head := s.head ||| (s.inputData.getD (advanceCursor s.inputPosition) 0 >>> s.bits),
          buffer := shl32 (s.inputData.getD (advanceCursor s.inputPosition) 0) (32 - s.bits),
          bits := s.bits + 32, inputPosition := advanceCursor s.inputPosition + 1 }

/-- `needBits`: pull one word when fewer than `bits` bits are available. -/
def needBits (s : State) (bits : Nat) : Except Fail State :=
  if bits > 32 then .error (.crash .needTooMany)
  else if s.bits < bits then pullByte s
  else .ok s

/-- `dropBits`: discard `bits` bits from the head/buffer registers. -/
def dropBits (s : State) (bits : Nat) : Except Fail State :=
  if bits > 32 then .error (.crash .dropTooMany)
  else if bits > s.bits then .error (.crash .dropMoreThanHave)
  else if bits = 32 then .ok { s with head := s.buffer, buffer := 0, bits := s.bits - 32 }
  else .ok { s with head := (shl32 s.head bits) ||| (s.buffer >>> (32 - bits)),
                    buffer := shl32 s.buffer bits,
                    bits := s.bits - bits }

/-- `readBits`: peek the top `bits` bits of the head register.  In the source
`bits` is a `uint8` and the shift count is `32 - bits`; for `bits > 32` the
wrapped `uint8` count is at least 33, so the Go shift yields 0. -/
def readBits (s : State) (bits : Nat) : Nat :=
  if bits ≤ 32 then s.head >>> (32 - bits) else 0

/-- The `HuffmanTree` structure: four arrays of 285 entries. -/
structure HuffmanTree where
  symbolValues : List Nat
  compressedCodes : List Nat
  bitsLength : List Nat
  symbolValueOffset : List Nat
  deriving DecidableEq, Repr

/-- The scan `for bitsRead < CompressedCodes[i] { i++ }` of `readCode`,
walking the 285-entry array; running off its end is an index panic. -/
def scanCodes : List Nat → Nat → Nat → Except Fail Nat
  | [], _, _ => .error (.crash .indexOutOfRange)
  | c :: rest, b, i => if b < c then scanCodes rest b (i + 1) else .ok i

/-- `readCode` decodes one symbol: guard against an empty tree, ensure 32
bits, peek them, scan for the class, index the symbol table (a `uint16`
subtraction; an out-of-range index is an array panic), drop the class's
bit length. -/
def readCode (t : HuffmanTree) (s : State) : Except Fail (State × Nat) :=
  if t.compressedCodes.getD 0 0 = 0 then .error (.crash .emptyTree)
  else do
    let s ← needBits s 32
    let bitsRead := readBits s 32
    let i ← scanCodes t.compressedCodes bitsRead 0
    let tempBits := t.bitsLength.getD i 0
    let shifted := if tempBits ≤ 32
      then (bitsRead - t.compressedCodes.getD i 0) >>> (32 - tempBits)
      else 0
    let idx := sub16 (t.symbolValueOffset.getD i 0) (shifted % M16)
    if idx < t.symbolValues.length then
      let code := t.symbolValues.getD idx 0
      let s ← dropBits s tempBits
      .ok (s, code)
    else .error (.crash .indexOutOfRange)

/-- The inner chain walk of `createHuffmanTree`: emit the linked list of
symbols of one code length into `symbolValues` (decrementing the running
code once per symbol).  `workingCodeTab` has 285 entries and `symbolValues`
has 285 slots; indexing either out of range is an array panic.  Go's
`uint16(tempSymbol)` cast is `int16ToU16`.  A cyclic chain diverges in Go;
here it exhausts the fuel. -/
def chainLoop : Nat → List Int → Int → List Nat → Nat → Nat →
    Except Fail (List Nat × Nat × Nat)
  | 0, _, _, _, _, _ => .error (.crash .fuelExhausted)
  | fuel + 1, wCode, sym, symVals, symOff, code =>
    if sym ≠ -1 then
      if symOff < symVals.length then
        let symVals' := symVals.set symOff (int16ToU16 sym)
        if 0 ≤ sym ∧ sym < 285 then
          chainLoop fuel wCode (wCode.getD sym.toNat 0) symVals' (symOff + 1) (sub32 code 1)
        else .error (.crash .indexOutOfRange)
      else .error (.crash .indexOutOfRange)
    else .ok (symVals, symOff, code)

/-- The outer loop of `createHuffmanTree`, walking code lengths
`tempBits = 0, 1, …` over the entries of `workingBitTab` (32 entries) with a
running 32-bit code.  For each populated length: walk the chain, then record
the left-justified minimum code `(code+1) << (32−L)`, the bit length, and
`symbolOffset − 1` (a `uint16`), and advance the class index.  After every
length, `code = (code << 1) + 1`. -/
def buildClasses : List Int → List Int → Nat → Nat → Nat → Nat → Nat → HuffmanTree →
    Except Fail HuffmanTree
  | [], _, _, _, _, _, _, t => .ok t
  | e :: rest, wCode, fuel, tempBits, code, compIdx, symOff, t =>
    if e ≠ -1 then do
      let (symVals', symOff', code') ← chainLoop fuel wCode e t.symbolValues symOff code
      if compIdx < 285 then
        let t' : HuffmanTree :=
          { symbolValues := symVals',
            compressedCodes := t.compressedCodes.set compIdx (shl32 (add32 code' 1) (32 - tempBits)),
            bitsLength := t.bitsLength.set compIdx tempBits,
            symbolValueOffset := t.symbolValueOffset.set compIdx (sub16 symOff' 1) }
        buildClasses rest wCode fuel (tempBits + 1) ((shl32 code' 1) + 1) (compIdx + 1) symOff' t'
      else .error (.crash .indexOutOfRange)
    else
      buildClasses rest wCode fuel (tempBits + 1) ((shl32 code 1) + 1) compIdx symOff t

/-- The all-zero `HuffmanTree` (Go zero value of the struct). -/
def emptyTree : HuffmanTree :=
  { symbolValues := List.replicate 285 0,
    compressedCodes := List.replicate 285 0,
    bitsLength := List.replicate 285 0,
    symbolValueOffset := List.replicate 285 0 }

/-- `createHuffmanTree`: build a decoder table from the working bit table
(32 entries, head symbol per code length) and working code table (285
entries, chain links), starting from the zeroed tree the callers pass in. -/
def createHuffmanTree (fuel : Nat) (wBits wCode : List Int) : Except Fail HuffmanTree :=
  buildClasses wBits wCode fuel 0 0 0 0 emptyTree

/-- `fillTabsHelper`: register one (bits, symbol) pair into the working
tables.  Out-of-range `bits` or too-high `symbol` only prints and returns;
a negative symbol index would panic in the else-branch. -/
def fillTabsHelper (bits : Nat) (symbol : Int) (wBits wCode : List Int) :
    Except Fail (List Int × List Int) :=
  if bits ≥ MAX_CODE_BITS_LENGTH then .ok (wBits, wCode)
  else if symbol ≥ 285 then .ok (wBits, wCode)
  else if wBits.getD bits 0 = -1 then .ok (wBits.set bits symbol, wCode)
  else if 0 ≤ symbol then
    .ok (wBits.set bits symbol, wCode.set symbol.toNat (wBits.getD bits 0))
  else .error (.crash .indexOutOfRange)

/-- The hard-coded per-symbol bit lengths of the dictionary tree (256
entries, values in `[3,16]`). -/
def dictBitsTab : List Nat :=
  [3, 3, 3, 4, 4, 4, 4, 5, 5, 5, 5, 6, 6, 6, 6, 6, 6, 6, 6, 7, 7, 7, 7, 7, 7, 7, 8, 8, 8, 8,
   8, 8, 9, 9, 9, 9, 9, 9, 9, 9, 9, 9, 10, 10, 10, 10, 10, 10, 10, 10, 10, 10, 10, 10, 10, 10,
   10, 10, 11, 11, 11, 11, 11, 11, 11, 11, 11, 11, 11, 11, 11, 12, 12, 12, 12, 12, 12, 12, 13,
   13, 13, 13, 13, 13, 14, 14, 14, 14, 15, 15, 15, 15, 15, 15, 15, 15, 16, 16, 16, 16, 16, 16,
   16, 16, 16, 16, 16, 16, 16, 16, 16, 16, 16, 16, 16, 16, 16, 16, 16, 16, 16, 16, 16, 16, 16,
   16, 16, 16, 16, 16, 16, 16, 16, 16, 16, 16, 16, 16, 16, 16, 16, 16, 16, 16, 16, 16, 16, 16,
   16, 16, 16, 16, 16, 16, 16, 16, 16, 16, 16, 16, 16, 16, 16, 16, 16, 16, 16, 16, 16, 16, 16,
   16, 16, 16, 16, 16, 16, 16, 16, 16, 16, 16, 16, 16, 16, 16, 16, 16, 16, 16, 16, 16, 16, 16,
   16, 16, 16, 16, 16, 16, 16, 16, 16, 16, 16, 16, 16, 16, 16, 16, 16, 16, 16, 16, 16, 16, 16,
   16, 16, 16, 16, 16, 16, 16, 16, 16, 16, 16, 16, 16, 16, 16, 16, 16, 16, 16, 16, 16, 16, 16,
   16, 16, 16, 16, 16, 16, 16, 16, 16, 16, 16, 16, 16, 16, 16, 16]

/-- The hard-coded symbol values of the dictionary tree (256 entries). -/
def dictSymbolsTab : List Int :=
  [0x0A, 0x09, 0x08, 0x0C, 0x0B, 0x07, 0x00, 0xE0, 0x2A, 0x29, 0x06, 0x4A, 0x40, 0x2C, 0x2B,
   0x28, 0x20, 0x05, 0x04, 0x49, 0x48, 0x27, 0x26, 0x25, 0x0D, 0x03, 0x6A, 0x69, 0x4C, 0x4B,
   0x47, 0x24, 0xE8, 0xA0, 0x89, 0x88, 0x68, 0x67, 0x63, 0x60, 0x46, 0x23, 0xE9, 0xC9, 0xC0,
   0xA9, 0xA8, 0x8A, 0x87, 0x80, 0x66, 0x65, 0x45, 0x44, 0x43, 0x2D, 0x02, 0x01, 0xE5, 0xC8,
   0xAA, 0xA5, 0xA4, 0x8B, 0x85, 0x84, 0x6C, 0x6B, 0x64, 0x4D, 0x0E, 0xE7, 0xCA, 0xC7, 0xA7,
   0xA6, 0x86, 0x83, 0xE6, 0xE4, 0xC4, 0x8C, 0x2E, 0x22, 0xEC, 0xC6, 0x6D, 0x4E, 0xEA, 0xCC,
   0xAC, 0xAB, 0x8D, 0x11, 0x10, 0x0F, 0xFF, 0xFE, 0xFD, 0xFC, 0xFB, 0xFA, 0xF9, 0xF8, 0xF7,
   0xF6, 0xF5, 0xF4, 0xF3, 0xF2, 0xF1, 0xF0, 0xEF, 0xEE, 0xED, 0xEB, 0xE3, 0xE2, 0xE1, 0xDF,
   0xDE, 0xDD, 0xDC, 0xDB, 0xDA, 0xD9, 0xD8, 0xD7, 0xD6, 0xD5, 0xD4, 0xD3, 0xD2, 0xD1, 0xD0,
   0xCF, 0xCE, 0xCD, 0xCB, 0xC5, 0xC3, 0xC2, 0xC1, 0xBF, 0xBE, 0xBD, 0xBC, 0xBB, 0xBA, 0xB9,
   0xB8, 0xB7, 0xB6, 0xB5, 0xB4, 0xB3, 0xB2, 0xB1, 0xB0, 0xAF, 0xAE, 0xAD, 0xA3, 0xA2, 0xA1,
   0x9F, 0x9E, 0x9D, 0x9C, 0x9B, 0x9A, 0x99, 0x98, 0x97, 0x96, 0x95, 0x94, 0x93, 0x92, 0x91,
   0x90, 0x8F, 0x8E, 0x82, 0x81, 0x7F, 0x7E, 0x7D, 0x7C, 0x7B, 0x7A, 0x79, 0x78, 0x77, 0x76,
   0x75, 0x74, 0x73, 0x72, 0x71, 0x70, 0x6F, 0x6E, 0x62, 0x61, 0x5F, 0x5E, 0x5D, 0x5C, 0x5B,
   0x5A, 0x59, 0x58, 0x57, 0x56, 0x55, 0x54, 0x53, 0x52, 0x51, 0x50, 0x4F, 0x42, 0x41, 0x3F,
   0x3E, 0x3D, 0x3C, 0x3B, 0x3A, 0x39, 0x38, 0x37, 0x36, 0x35, 0x34, 0x33, 0x32, 0x31, 0x30,
   0x2F, 0x21, 0x1F, 0x1E, 0x1D, 0x1C, 0x1B, 0x1A, 0x19, 0x18, 0x17, 0x16, 0x15, 0x14, 0x13,
   0x12]

/-- Fold `fillTabsHelper` over the paired hard-coded tables. -/
def fillAllTabs : List (Nat × Int) → List Int → List Int → Except Fail (List Int × List Int)
  | [], wBits, wCode => .ok (wBits, wCode)
  | (b, sym) :: rest, wBits, wCode => do
    let (wBits', wCode') ← fillTabsHelper b sym wBits wCode
    fillAllTabs rest wBits' wCode'

/-- `initializeHuffmanTreeDict`, built from the source tables: initialize the
working tables to −1, register all 256 pairs, build the tree. -/
def buildHuffmanTreeDict : Except Fail HuffmanTree := do
  let wBits := List.replicate 32 (-1 : Int)
  let wCode := List.replicate 285 (-1 : Int)
  let (wBits', wCode') ← fillAllTabs (dictBitsTab.zip dictSymbolsTab) wBits wCode
  createHuffmanTree 600 wBits' wCode'

/-- The inner registration loop of `parseHuffmanTree`: register
`codeNumberSymbol` successive symbols (each the current descending counter
`r`) under code length `bits`, decrementing `r` after each.  `bits` is
`tempCode & 0x1F < 32`, so the working-bit index is in range; the
working-code index `r` panics when outside `[0, 285)`. -/
def registerLoop : Nat → Nat → List Int → List Int → Int → Int →
    Except Fail (List Int × List Int × Int)
  | 0, _, _, _, _, _ => .error (.crash .fuelExhausted)
  | fuel + 1, bits, wBits, wCode, r, cnt =>
    if cnt > 0 then
      if wBits.getD bits 0 = -1 then
        registerLoop fuel bits (wBits.set bits r) wCode (r - 1) (cnt - 1)
      else if 0 ≤ r ∧ r < 285 then
        registerLoop fuel bits (wBits.set bits r) (wCode.set r.toNat (wBits.getD bits 0))
          (r - 1) (cnt - 1)
      else .error (.crash .indexOutOfRange)
    else .ok (wBits, wCode, r)

/-- The code-repartition loop of `parseHuffmanTree`: while the descending
symbol counter is non-negative, decode one code from the dictionary tree,
split it into `bits = c & 0x1F` and `count = (c >> 5) + 1`, and either skip
`count` symbols (`bits == 0`) or register them. -/
def parseTreeLoop (dict : HuffmanTree) : Nat → State → List Int → List Int → Int →
    Except Fail (State × List Int × List Int)
  | 0, _, _, _, _ => .error (.crash .fuelExhausted)
  | fuel + 1, s, wBits, wCode, r =>
    if r ≥ 0 then do
      let (s', c) ← readCode dict s
      let bits := c &&& 0x1F
      let cnt : Int := ((c >>> 5) + 1 : Nat)
      if bits = 0 then parseTreeLoop dict fuel s' wBits wCode (r - cnt)
      else do
        let (wBits', wCode', r') ← registerLoop fuel bits wBits wCode r cnt
        parseTreeLoop dict fuel s' wBits' wCode' r'
    else .ok (s, wBits, wCode)

/-- `parseHuffmanTree`: read the 16-bit symbol count (converted to `int16`
as in the source; an over-limit count only prints a warning), reset the
working tables, run the repartition loop from `numberSymbol − 1`, and build
the tree.  The dictionary tree used for the inner decodes is passed in. -/
def parseHuffmanTree (dict : HuffmanTree) (fuel : Nat) (s : State) :
    Except Fail (State × HuffmanTree) := do
  let s ← needBits s 16
  let numberSymbolData := readBits s 16
  let s ← dropBits s 16
  let wBits := List.replicate 32 (-1 : Int)
  let wCode := List.replicate 285 (-1 : Int)
  let numberSymbol := toInt16 numberSymbolData
  let (s, wBits', wCode') ← parseTreeLoop dict fuel s wBits wCode (numberSymbol - 1)
  let t ← createHuffmanTree fuel wBits' wCode'
  .ok (s, t)

/-- The write-size computation of one copy-mode step: the bucket switch on
`tempCode / 4` (with `os.Exit(1)` on the default case), the optional
`codeDivision4 − 1` extra bits ORed in, and the addition of the per-call
constant `writeSizeConstantAddition`. -/
def writeSizeStep (s : State) (v S : Nat) : Except Fail (State × Nat) := do
  let q := v / 4
  let r := v % 4
  let ws ←
    if q = 0 then Except.ok v
    else if q < 7 then Except.ok ((1 <<< (q - 1)) * (4 + r))
    else if v = 28 then Except.ok 0xFF
    else Except.error (Fail.crash .exitWriteSize)
  if q > 1 ∧ v ≠ 28 then do
    let s ← needBits s (q - 1)
    let ws' := ws ||| readBits s (q - 1)
    let s ← dropBits s (q - 1)
    .ok (s, add32 ws' S)
  else .ok (s, add32 ws S)

/-- The write-offset computation of one copy-mode step: the bucket switch on
`tempCode / 2` (with `os.Exit(1)` on the default case), the optional
`codeDivision2 − 1` extra bits ORed in, and the final `+ 1`.  The base
product `(1 << (codeDivision2 - 1)) * (2 + (tempCode % 2))` is computed in
`uint16` (both operands are `uint16`, the cast to `uint32` happens only
afterwards), so it wraps modulo `2^16`: at `codeDivision2 = 16` the
mathematical values 65536 and 98304 become 0 and 32768. -/
def writeOffsetStep (s : State) (v : Nat) : Except Fail (State × Nat) := do
  let u := v / 2
  let wo ←
    if u = 0 then Except.ok v
    else if u < 17 then Except.ok (((1 <<< (u - 1)) * (2 + v % 2)) % 65536)
    else Except.error (Fail.crash .exitWriteOffset)
  if u > 1 then do
    let s ← needBits s (u - 1)
    let wo' := wo ||| readBits s (u - 1)
    let s ← dropBits s (u - 1)
    .ok (s, add32 wo' 1)
  else .ok (s, add32 wo 1)

/-- One step of the byte-by-byte copy loop: the source index is the `uint32`
difference `tempOutputPosition − writeOffset`.  The output buffer is
modelled as the reversed list of bytes written so far (all writes in
`inflateData` happen at `tempOutputPosition`, which always equals the number
of bytes written) inside an allocation of `alloc` zero-initialized cells: a
source index at or beyond `alloc` is a slice-bounds panic, an index below
the write position reads a written byte, and an index between them reads a
still-zero cell. -/
def copyLoop : Nat → Nat → Nat → Nat → Nat → List Nat → Except Fail (List Nat)
  | 0, _, _, _, _, _ => .error (.crash .fuelExhausted)
  | fuel + 1, written, writeSize, writeOffset, alloc, rev =>
    if written < writeSize ∧ rev.length < alloc then
      let idx := (rev.length + M32 - writeOffset % M32) % M32
      if idx < alloc then
        let b := if idx < rev.length then rev.getD (rev.length - 1 - idx) 0 else 0
        copyLoop fuel (written + 1) writeSize writeOffset alloc (b :: rev)
      else .error (.crash .indexOutOfRange)
    else .ok rev

/-- The inner code-reading loop of `inflateData`: up to `maxCount` codes,
stopping early when the write position reaches the buffer size.  A symbol
below `0x100` is a literal byte (Go's `uint8` cast); otherwise copy mode
runs the write-size step, the copy-tree decode, the write-offset step, and
the copy loop. -/
def innerLoop (tSym tCpy : HuffmanTree) (S maxCount alloc : Nat) :
    Nat → Nat → State → List Nat → Except Fail (State × List Nat)
  | 0, _, _, _ => .error (.crash .fuelExhausted)
  | fuel + 1, count, s, rev =>
    if count < maxCount ∧ rev.length < alloc then do
      let (s, code) ← readCode tSym s
      if code < 0x100 then
        innerLoop tSym tCpy S maxCount alloc fuel (count + 1) s ((code % 256) :: rev)
      else do
        let v := code - 0x100
        let (s, ws) ← writeSizeStep s v S
        let (s, c2) ← readCode tCpy s
        let (s, wo) ← writeOffsetStep s c2
        let rev' ← copyLoop fuel 0 ws wo alloc rev
        innerLoop tSym tCpy S maxCount alloc fuel (count + 1) s rev'
    else .ok (s, rev)

/-- The main loop of `inflateData`: while the write position is below the
buffer size, parse the symbol and copy trees, read the 4-bit `MaxCount`
field (`(m + 1) << 12`), and run the inner loop. -/
def mainLoop (dict : HuffmanTree) (S alloc : Nat) :
    Nat → State → List Nat → Except Fail (State × List Nat)
  | 0, _, _ => .error (.crash .fuelExhausted)
  | fuel + 1, s, rev =>
    if rev.length < alloc then do
      let (s, tSym) ← parseHuffmanTree dict fuel s
      let (s, tCpy) ← parseHuffmanTree dict fuel s
      let s ← needBits s 4
      let maxCount := (readBits s 4 + 1) <<< 12
      let s ← dropBits s 4
      let (s, rev') ← innerLoop tSym tCpy S maxCount alloc fuel 0 s rev
      mainLoop dict S alloc fuel s rev'
    else .ok (s, rev)

/-- `inflateData`: read the 8-bit prefix field once (drop 4 bits, read 4
bits, drop 4 bits) to obtain `writeSizeConstantAddition = K + 1`, run the
main loop, and materialize the output buffer: the bytes written so far
followed by the untouched zero cells of the allocation.  Both callers pass
a freshly allocated buffer whose length equals `outputBufferSize`, so the
embedding takes the single size `alloc`. -/
def inflateData (dict : HuffmanTree) (s : State) (alloc fuel : Nat) :
    Except Fail (List Nat) := do
  let s ← needBits s 8
  let s ← dropBits s 4
  let writeSizeConstantAddition := readBits s 4 + 1
  let s ← dropBits s 4
  let (_, rev) ← mainLoop dict writeSizeConstantAddition alloc fuel s []
  .ok (rev.reverse ++ List.replicate (alloc - rev.length) 0)

/-- `convertU8ToU32` body: combine each four consecutive bytes
little-endian.  Each byte is a `uint8`, hence the `% 256`. -/
def convertWords : List Nat → List Nat
  | b0 :: b1 :: b2 :: b3 :: rest =>
    ((b0 % 256) ||| ((b1 % 256) <<< 8) ||| ((b2 % 256) <<< 16) ||| ((b3 % 256) <<< 24))
      :: convertWords rest
  | _ => []

/-- `convertU8ToU32`: reject an input whose length is not a multiple of 4,
otherwise produce the little-endian 32-bit words. -/
def convertU8ToU32 (input : List Nat) : Except Fail (List Nat) :=
  if input.length % 4 ≠ 0 then .error (.err .inputNotMultipleOf4)
  else .ok (convertWords input)

/-- Precomputed `symbolValues` array of the dictionary tree. -/
def dict_symbolValues : List Nat :=
  [8, 9, 10, 0, 7, 11, 12, 6, 41, 42, 224, 4, 5, 32, 40, 43, 44, 64, 74, 3, 13, 37, 38, 39, 72,
   73, 36, 71, 75, 76, 105, 106, 35, 70, 96, 99, 103, 104, 136, 137, 160, 232, 1, 2, 45, 67, 68,
   69, 101, 102, 128, 135, 138, 168, 169, 192, 201, 233, 14, 77, 100, 107, 108, 132, 133, 139,
   164, 165, 170, 200, 229, 131, 134, 166, 167, 199, 202, 231, 34, 46, 140, 196, 228, 230, 78,
   109, 198, 236, 15, 16, 17, 141, 171, 172, 204, 234, 18, 19, 20, 21, 22, 23, 24, 25, 26, 27, 28,
   29, 30, 31, 33, 47, 48, 49, 50, 51, 52, 53, 54, 55, 56, 57, 58, 59, 60, 61, 62, 63, 65, 66, 79,
   80, 81, 82, 83, 84, 85, 86, 87, 88, 89, 90, 91, 92, 93, 94, 95, 97, 98, 110, 111, 112, 113,
   114, 115, 116, 117, 118, 119, 120, 121, 122, 123, 124, 125, 126, 127, 129, 130, 142, 143, 144,
   145, 146, 147, 148, 149, 150, 151, 152, 153, 154, 155, 156, 157, 158, 159, 161, 162, 163, 173,
   174, 175, 176, 177, 178, 179, 180, 181, 182, 183, 184, 185, 186, 187, 188, 189, 190, 191, 193,
   194, 195, 197, 203, 205, 206, 207, 208, 209, 210, 211, 212, 213, 214, 215, 216, 217, 218, 219,
   220, 221, 222, 223, 225, 226, 227, 235, 237, 238, 239, 240, 241, 242, 243, 244, 245, 246, 247,
   248, 249, 250, 251, 252, 253, 254, 255, 0, 0, 0, 0, 0, 0, 0, 0, 0, 0, 0, 0, 0, 0, 0, 0, 0, 0,
   0, 0, 0, 0, 0, 0, 0, 0, 0, 0, 0]

/-- Precomputed `compressedCodes` array of the dictionary tree. -/
def dict_compressedCodes : List Nat :=
  [2684354560, 1610612736, 1073741824, 536870912, 301989888, 201326592, 117440512, 50331648,
   23068672, 15728640, 12582912, 11534336, 10485760, 0, 0, 0, 0, 0, 0, 0, 0, 0, 0, 0, 0, 0, 0, 0,
   0, 0, 0, 0, 0, 0, 0, 0, 0, 0, 0, 0, 0, 0, 0, 0, 0, 0, 0, 0, 0, 0, 0, 0, 0, 0, 0, 0, 0, 0, 0, 0,
   0, 0, 0, 0, 0, 0, 0, 0, 0, 0, 0, 0, 0, 0, 0, 0, 0, 0, 0, 0, 0, 0, 0, 0, 0, 0, 0, 0, 0, 0, 0, 0,
   0, 0, 0, 0, 0, 0, 0, 0, 0, 0, 0, 0, 0, 0, 0, 0, 0, 0, 0, 0, 0, 0, 0, 0, 0, 0, 0, 0, 0, 0, 0, 0,
   0, 0, 0, 0, 0, 0, 0, 0, 0, 0, 0, 0, 0, 0, 0, 0, 0, 0, 0, 0, 0, 0, 0, 0, 0, 0, 0, 0, 0, 0, 0, 0,
   0, 0, 0, 0, 0, 0, 0, 0, 0, 0, 0, 0, 0, 0, 0, 0, 0, 0, 0, 0, 0, 0, 0, 0, 0, 0, 0, 0, 0, 0, 0, 0,
   0, 0, 0, 0, 0, 0, 0, 0, 0, 0, 0, 0, 0, 0, 0, 0, 0, 0, 0, 0, 0, 0, 0, 0, 0, 0, 0, 0, 0, 0, 0, 0,
   0, 0, 0, 0, 0, 0, 0, 0, 0, 0, 0, 0, 0, 0, 0, 0, 0, 0, 0, 0, 0, 0, 0, 0, 0, 0, 0, 0, 0, 0, 0, 0,
   0, 0, 0, 0, 0, 0, 0, 0, 0, 0, 0, 0, 0, 0, 0, 0, 0, 0, 0, 0, 0, 0, 0, 0, 0, 0, 0, 0, 0, 0, 0, 0,
   0]

/-- Precomputed `bitsLength` array of the dictionary tree. -/
def dict_bitsLength : List Nat :=
  [3, 4, 5, 6, 7, 8, 9, 10, 11, 12, 13, 14, 15, 16, 0, 0, 0, 0, 0, 0, 0, 0, 0, 0, 0, 0, 0, 0, 0,
   0, 0, 0, 0, 0, 0, 0, 0, 0, 0, 0, 0, 0, 0, 0, 0, 0, 0, 0, 0, 0, 0, 0, 0, 0, 0, 0, 0, 0, 0, 0, 0,
   0, 0, 0, 0, 0, 0, 0, 0, 0, 0, 0, 0, 0, 0, 0, 0, 0, 0, 0, 0, 0, 0, 0, 0, 0, 0, 0, 0, 0, 0, 0, 0,
   0, 0, 0, 0, 0, 0, 0, 0, 0, 0, 0, 0, 0, 0, 0, 0, 0, 0, 0, 0, 0, 0, 0, 0, 0, 0, 0, 0, 0, 0, 0, 0,
   0, 0, 0, 0, 0, 0, 0, 0, 0, 0, 0, 0, 0, 0, 0, 0, 0, 0, 0, 0, 0, 0, 0, 0, 0, 0, 0, 0, 0, 0, 0, 0,
   0, 0, 0, 0, 0, 0, 0, 0, 0, 0, 0, 0, 0, 0, 0, 0, 0, 0, 0, 0, 0, 0, 0, 0, 0, 0, 0, 0, 0, 0, 0, 0,
   0, 0, 0, 0, 0, 0, 0, 0, 0, 0, 0, 0, 0, 0, 0, 0, 0, 0, 0, 0, 0, 0, 0, 0, 0, 0, 0, 0, 0, 0, 0, 0,
   0, 0, 0, 0, 0, 0, 0, 0, 0, 0, 0, 0, 0, 0, 0, 0, 0, 0, 0, 0, 0, 0, 0, 0, 0, 0, 0, 0, 0, 0, 0, 0,
   0, 0, 0, 0, 0, 0, 0, 0, 0, 0, 0, 0, 0, 0, 0, 0, 0, 0, 0, 0, 0, 0, 0, 0, 0, 0, 0, 0, 0, 0, 0, 0]

/-- Precomputed `symbolValueOffset` array of the dictionary tree. -/
def dict_symbolValueOffset : List Nat :=
  [2, 6, 10, 18, 25, 31, 41, 57, 70, 77, 83, 87, 95, 255, 0, 0, 0, 0, 0, 0, 0, 0, 0, 0, 0, 0, 0,
   0, 0, 0, 0, 0, 0, 0, 0, 0, 0, 0, 0, 0, 0, 0, 0, 0, 0, 0, 0, 0, 0, 0, 0, 0, 0, 0, 0, 0, 0, 0, 0,
   0, 0, 0, 0, 0, 0, 0, 0, 0, 0, 0, 0, 0, 0, 0, 0, 0, 0, 0, 0, 0, 0, 0, 0, 0, 0, 0, 0, 0, 0, 0, 0,
   0, 0, 0, 0, 0, 0, 0, 0, 0, 0, 0, 0, 0, 0, 0, 0, 0, 0, 0, 0, 0, 0, 0, 0, 0, 0, 0, 0, 0, 0, 0, 0,
   0, 0, 0, 0, 0, 0, 0, 0, 0, 0, 0, 0, 0, 0, 0, 0, 0, 0, 0, 0, 0, 0, 0, 0, 0, 0, 0, 0, 0, 0, 0, 0,
   0, 0, 0, 0, 0, 0, 0, 0, 0, 0, 0, 0, 0, 0, 0, 0, 0, 0, 0, 0, 0, 0, 0, 0, 0, 0, 0, 0, 0, 0, 0, 0,
   0, 0, 0, 0, 0, 0, 0, 0, 0, 0, 0, 0, 0, 0, 0, 0, 0, 0, 0, 0, 0, 0, 0, 0, 0, 0, 0, 0, 0, 0, 0, 0,
   0, 0, 0, 0, 0, 0, 0, 0, 0, 0, 0, 0, 0, 0, 0, 0, 0, 0, 0, 0, 0, 0, 0, 0, 0, 0, 0, 0, 0, 0, 0, 0,
   0, 0, 0, 0, 0, 0, 0, 0, 0, 0, 0, 0, 0, 0, 0, 0, 0, 0, 0, 0, 0, 0, 0, 0, 0, 0, 0, 0, 0, 0, 0, 0,
   0, 0]

/-- The process-wide dictionary tree, as a precomputed literal (see
`huffmanTreeDict_eq_build` below for the proof that it equals the tree the
source's `initializeHuffmanTreeDict` builds). -/
def huffmanTreeDict : HuffmanTree :=
  { symbolValues := dict_symbolValues,
    compressedCodes := dict_compressedCodes,
    bitsLength := dict_bitsLength,
    symbolValueOffset := dict_symbolValueOffset }

/-- The literal dictionary tree is exactly the one built from the hard-coded
tables by `initializeHuffmanTreeDict`. -/
theorem huffmanTreeDict_eq_build : buildHuffmanTreeDict = .ok huffmanTreeDict := by decide

/-- `inflateBuffer`: check the dictionary tree (built once per process; here
the verified literal `huffmanTreeDict`), convert the byte buffer to 32-bit
words, initialize the state, skip the 32-bit header word, read the 32-bit
uncompressed size, clamp it by the caller's non-zero `outputBufferSize` cap,
report the clamped size, allocate `customOutputBufferSize` instead when that
is non-zero, and inflate.  The Go function's `inputBufferSize` parameter is
unused by its body and omitted here; the `nil`-buffer check has no
counterpart on `List`.  Returns (output buffer, reported size). -/
def inflateBuffer (inputBuffer : List Nat) (outputBufferSize customOutputBufferSize : Nat)
    (fuel : Nat) : Except Fail (List Nat × Nat) := do
  if huffmanTreeDict.compressedCodes.getD 0 0 = 0 then .error (.err .huffmanTreeEmpty)
  else do
    let u32InputBuffer ← convertU8ToU32 inputBuffer
    let s : State :=
      { inputData := u32InputBuffer, inputSize := u32InputBuffer.length,
        inputPosition := 0, head := 0, bits := 0, buffer := 0 }
    let s ← needBits s 32
    let s ← dropBits s 32
    let s ← needBits s 32
    let tempOutputBufferSize := readBits s 32
    let s ← dropBits s 32
    let clamped :=
      if outputBufferSize ≠ 0 ∧ tempOutputBufferSize > outputBufferSize
        then outputBufferSize else tempOutputBufferSize
    let allocSize := if customOutputBufferSize > 0 then customOutputBufferSize else clamped
    let out ← inflateData huffmanTreeDict s allocSize fuel
    .ok (out, clamped)

/-- MSB-first bits of a `width`-bit field (a helper for building concrete
test streams, not part of the source embedding). -/
def fieldBits (v width : Nat) : List Bool :=
  (List.range width).map (fun i => v.testBit (width - 1 - i))

/-- Collapse a list of at most 32 bits, MSB first, into a word, padding the
low end with zero bits. -/
def bitsToWord (bs : List Bool) : Nat :=
  (bs.foldl (fun a b => 2 * a + (if b then 1 else 0)) 0) <<< (32 - bs.length)

/-- Chunk a flat bit list into 32-bit words (MSB of each word first); the
counter (instantiated with the list length) makes the recursion structural
so concrete streams evaluate inside the kernel. -/
def chunkWordsAux : Nat → List Bool → List Nat
  | 0, _ => []
  | n + 1, bs => if bs.isEmpty then [] else bitsToWord (bs.take 32) :: chunkWordsAux n (bs.drop 32)

/-- Chunk a flat bit list into 32-bit words. -/
def chunkWords (bs : List Bool) : List Nat := chunkWordsAux bs.length bs

/-- Little-endian bytes of a 32-bit word. -/
def wordBytes (w : Nat) : List Nat :=
  [w % 256, (w >>> 8) % 256, (w >>> 16) % 256, (w >>> 24) % 256]

/-- Assemble a byte buffer from a list of (value, width) bit fields. -/
def packFields (fields : List (Nat × Nat)) : List Nat :=
  ((chunkWords (fields.flatMap (fun f => fieldBits f.1 f.2))).map wordBytes).flatten

/-- The `DatHeader` structure (all fields little-endian integers; the
3-byte identifier is kept as raw bytes). -/
structure DatHeader where
  version : Nat
  identifier : List Nat
  headerSize : Nat
  unknownField : Nat
  chunkSize : Nat
  crc : Nat
  unknownField2 : Nat
  mftOffset : Nat
  mftSize : Nat
  flags : Nat
  deriving DecidableEq, Repr

/-- The `MFTHeader` structure. -/
structure MFTHeader where
  identifier : List Nat
  unknown : Nat
  numEntries : Nat
  unknownField2 : Nat
  unknownField3 : Nat
  deriving DecidableEq, Repr

/-- One `MFTData` entry. -/
structure MFTData where
  offset : Nat
  size : Nat
  compressionFlag : Nat
  entryFlag : Nat
  counter : Nat
  crc : Nat
  deriving DecidableEq, Repr, Inhabited

/-- One `MFTIndexData` record. -/
structure MFTIndexData where
  fileID : Nat
  baseID : Nat
  deriving DecidableEq, Repr

/-- The parsed `DatFile`. -/
structure DatFile where
  header : DatHeader
  mftHeader : MFTHeader
  mftData : List MFTData
  mftIndexData : List MFTIndexData
  deriving DecidableEq, Repr

/-- Little-endian value of a byte list (each byte truncated to `uint8`). -/
def leBytes : List Nat → Nat
  | [] => 0
  | b :: rest => b % 256 + 256 * leBytes rest

/-- Read `n` bytes at absolute offset `pos` of the file image.  A read that
runs past the end of the file fails in Go (`binary.Read` with the error
ignored), leaving the zero value; the embedding models every such read as
yielding 0 / zero bytes.  (The source ignores every read error, so a
truncated file silently produces zero fields.) -/
def readBytesAt (bytes : List Nat) (pos n : Nat) : List Nat :=
  if pos + n ≤ bytes.length then ((bytes.drop pos).take n).map (fun b => b % 256)
  else List.replicate n 0

/-- Read an `n`-byte little-endian integer at offset `pos`. -/
def readLEAt (bytes : List Nat) (pos n : Nat) : Nat :=
  leBytes (readBytesAt bytes pos n)

/-- Read `n` consecutive 24-byte `MFTData` entries starting at `base`. -/
def readMFTEntries (bytes : List Nat) (base : Nat) : Nat → List MFTData
  | 0 => []
  | n + 1 =>
    { offset := readLEAt bytes base 8,
      size := readLEAt bytes (base + 8) 4,
      compressionFlag := readLEAt bytes (base + 12) 2,
      entryFlag := readLEAt bytes (base + 14) 2,
      counter := readLEAt bytes (base + 16) 4,
      crc := readLEAt bytes (base + 20) 4 } :: readMFTEntries bytes (base + 24) n

/-- Read `n` consecutive 8-byte `MFTIndexData` records starting at `base`. -/
def readIndexEntries (bytes : List Nat) (base : Nat) : Nat → List MFTIndexData
  | 0 => []
  | n + 1 =>
    { fileID := readLEAt bytes base 4,
      baseID := readLEAt bytes (base + 4) 4 } :: readIndexEntries bytes (base + 8) n

/-- The exact MFT magic `"\x4D\x66\x74\x1A"`. -/
def mftMagic : List Nat := [0x4D, 0x66, 0x74, 0x1A]

/-- `MftEntryIndexNum = 1`. -/
def MftEntryIndexNum : Nat := 1

/-- `loadDatFile` on a file image (both source variants have identical
logic): read the `DatHeader`, seek to `MftOffset` and read the `MFTHeader`,
reject a wrong magic with a returned error, read the `NumEntries` MFT
entries, then UNCONDITIONALLY index `MFTData[1]` to locate the index table;
when `NumEntries <= 1` that access is a slice index panic, not an error
return.  Finally read `Entry[1].Size / 8` index records at
`Entry[1].Offset`. -/
def loadDatFile (bytes : List Nat) : Except Fail DatFile :=
  let header : DatHeader :=
    { version := readLEAt bytes 0 1,
      identifier := readBytesAt bytes 1 3,
      headerSize := readLEAt bytes 4 4,
      unknownField := readLEAt bytes 8 4,
      chunkSize := readLEAt bytes 12 4,
      crc := readLEAt bytes 16 4,
      unknownField2 := readLEAt bytes 20 4,
      mftOffset := readLEAt bytes 24 8,
      mftSize := readLEAt bytes 32 4,
      flags := readLEAt bytes 36 4 }
  let mftHeader : MFTHeader :=
    { identifier := readBytesAt bytes header.mftOffset 4,
      unknown := readLEAt bytes (header.mftOffset + 4) 8,
      numEntries := readLEAt bytes (header.mftOffset + 12) 4,
      unknownField2 := readLEAt bytes (header.mftOffset + 16) 4,
      unknownField3 := readLEAt bytes (header.mftOffset + 20) 4 }
  if mftHeader.identifier ≠ mftMagic then .error (.err .invalidMagic)
  else
    let mftData := readMFTEntries bytes (header.mftOffset + 24) mftHeader.numEntries
    if MftEntryIndexNum < mftData.length then
      let idxEntry := mftData.getD MftEntryIndexNum default
      let numIndexEntries := idxEntry.size / 8
      let mftIndexData := readIndexEntries bytes idxEntry.offset numIndexEntries
      .ok { header := header, mftHeader := mftHeader,
            mftData := mftData, mftIndexData := mftIndexData }
    else .error (.crash .indexOutOfRange)

/-- The index-table scan of `extractMFTData`: walk the records in stored
order; on the first match (`FileID` for a FileID lookup, `BaseID`
otherwise) return `int(entry.BaseID)`, else fall through to `-1`. -/
def findIndexLoop : List MFTIndexData → Nat → Bool → Int
  | [], _, _ => -1
  | e :: rest, number, isFileID =>
    if isFileID = true ∧ e.fileID = number then (e.baseID : Int)
    else if isFileID = false ∧ e.baseID = number then (e.baseID : Int)
    else findIndexLoop rest number isFileID

/-- The entry-resolution prefix of `extractMFTData` (the part before any
file I/O): scan the index table; `index == -1` is the returned
"MFT entry not found" error; otherwise access `MFTData[index-1]`, which
panics when `index - 1` is outside the entry array (there is no
CorruptIndex-style check in the source). -/
def resolveMFTEntry (datFile : DatFile) (number : Nat) (isFileID : Bool) :
    Except Fail MFTData :=
  let index := findIndexLoop datFile.mftIndexData number isFileID
  if index = -1 then .error (.err .notFound)
  else if 0 ≤ index - 1 ∧ (index - 1).toNat < datFile.mftData.length then
    .ok (datFile.mftData.getD (index - 1).toNat default)
  else .error (.crash .indexOutOfRange)

/-- Modelled from the claim C3's words: a main loop that reads one fresh
8-bit field (drop 4 bits, read 4 bits as `K`, drop 4 bits; `S = K + 1`) at
the start of EVERY iteration, the rest as in the source.  Compared against
the source-derived `mainLoop`/`inflateData`. -/
def mainLoopPerIterS (dict : HuffmanTree) (alloc : Nat) :
    Nat → State → List Nat → Except Fail (State × List Nat)
  | 0, _, _ => .error (.crash .fuelExhausted)
  | fuel + 1, s, rev =>
    if rev.length < alloc then do
      let s ← needBits s 8
      let s ← dropBits s 4
      let S := readBits s 4 + 1
      let s ← dropBits s 4
      let (s, tSym) ← parseHuffmanTree dict fuel s
      let (s, tCpy) ← parseHuffmanTree dict fuel s
      let s ← needBits s 4
      let maxCount := (readBits s 4 + 1) <<< 12
      let s ← dropBits s 4
      let (s, rev') ← innerLoop tSym tCpy S maxCount alloc fuel 0 s rev
      mainLoopPerIterS dict alloc fuel s rev'
    else .ok (s, rev)

/-- Modelled from the claim C3's words: `inflateData` with the per-iteration
8-bit field of `mainLoopPerIterS` (so no prefix read before the loop). -/
def inflateDataPerIterS (dict : HuffmanTree) (s : State) (alloc fuel : Nat) :
    Except Fail (List Nat) := do
  let (_, rev) ← mainLoopPerIterS dict alloc fuel s []
  .ok (rev.reverse ++ List.replicate (alloc - rev.length) 0)

/-- Modelled from the claim C3's words: `inflateBuffer` on top of
`inflateDataPerIterS` (all the surrounding steps as in the source). -/
def inflateBufferPerIterS (inputBuffer : List Nat)
    (outputBufferSize customOutputBufferSize : Nat) (fuel : Nat) :
    Except Fail (List Nat × Nat) := do
  if huffmanTreeDict.compressedCodes.getD 0 0 = 0 then .error (.err .huffmanTreeEmpty)
  else do
    let u32InputBuffer ← convertU8ToU32 inputBuffer
    let s : State :=
      { inputData := u32InputBuffer, inputSize := u32InputBuffer.length,
        inputPosition := 0, head := 0, bits := 0, buffer := 0 }
    let s ← needBits s 32
    let s ← dropBits s 32
    let s ← needBits s 32
    let tempOutputBufferSize := readBits s 32
    let s ← dropBits s 32
    let clamped :=
      if outputBufferSize ≠ 0 ∧ tempOutputBufferSize > outputBufferSize
        then outputBufferSize else tempOutputBufferSize
    let allocSize := if customOutputBufferSize > 0 then customOutputBufferSize else clamped
    let out ← inflateDataPerIterS huffmanTreeDict s allocSize fuel
    .ok (out, clamped)

/-- Modelled from the amended claim C3: the 8-bit field is read exactly once
per inflate call, before the main loop, and the resulting constant
`S = K + 1` is passed unchanged to every iteration (the loop itself never
reads it again). -/
def inflateDataReadOnceS (dict : HuffmanTree) (s : State) (alloc fuel : Nat) :
    Except Fail (List Nat) := do
  let s ← needBits s 8
  let s ← dropBits s 4
  let S := readBits s 4 + 1
  let s ← dropBits s 4
  let (_, rev) ← mainLoop dict S alloc fuel s []
  .ok (rev.reverse ++ List.replicate (alloc - rev.length) 0)

/-- Modelled from the claim C4's words: "the smallest class index `c` with
`b < MinCode[c]`" (a linear scan over the class array). -/
def claimSelect (codes : List Nat) (b : Nat) : Option Nat :=
  (List.range 285).find? (fun c => b < codes.getD c 0)

/-- Concrete compressed stream for C1: declared size 1; the symbol tree
holds only symbol `0x100` (one 1-bit code), the copy tree only symbol `0`;
the first decoded code is therefore a copy with `len = 1`, `dist = 1` at
output position 0. -/
def exC1fields : List (Nat × Nat) :=
  [(0, 32), (1, 32), (0, 4), (0, 4), (257, 16), (27, 10)] ++ List.replicate 32 (8, 5) ++
  [(1, 16), (27, 10), (0, 4), (1, 1), (1, 1), (0, 94)]

/-- The C1 stream as a byte buffer. -/
def exC1input : List Nat := packFields exC1fields

/-- Concrete compressed stream for C2: declared size 1; the symbol tree
holds only literal 65 (one 1-bit code); two literal bits follow, so the
inner loop can fill 2 output bytes when the allocation admits them. -/
def exC2fields : List (Nat × Nat) :=
  [(0, 32), (1, 32), (0, 4), (0, 4), (66, 16), (27, 10)] ++ List.replicate 8 (8, 5) ++
  [(9, 4), (1, 16), (27, 10), (0, 4), (1, 1), (1, 1), (0, 210)]

/-- The C2 stream as a byte buffer. -/
def exC2input : List Nat := packFields exC2fields

/-- Concrete stream for C3: a magic word and a declared size of 0, and
nothing else.  The main loop runs zero iterations, so per the claim no
8-bit field would be read from the stream. -/
def exC3input : List Nat := packFields [(0, 32), (0, 32)]

/-- Concrete bit-pump state for C4: 32 one-bits available in the head. -/
def exC4state : State :=
  { inputData := [], inputSize := 0, inputPosition := 0,
    head := 0xFFFFFFFF, bits := 32, buffer := 0 }

/-- Concrete word stream for C5: 16385 words, word index 0x3FFF holds 7 and
word index 0x4000 holds 9. -/
def exC5words : List Nat := ((List.replicate 16385 0).set 16383 7).set 16384 9

/-- Concrete bit-pump state for C5: the cursor sits at word index 0x3FFF,
the last word of the first 0x4000-word block. -/
def exC5state : State :=
  { inputData := exC5words, inputSize := 16385, inputPosition := 16383,
    head := 0, bits := 0, buffer := 0 }

/-- A concrete parsed archive for the extraction claims: three MFT entries
and four index records, including a duplicated FileID (first match must
win), a record with `BaseID = 0` and a record with an out-of-range
`BaseID = 9`. -/
def exDatFile : DatFile :=
  { header :=
    { version := 1, identifier := [65, 78, 26], headerSize := 40, unknownField := 0,
      chunkSize := 0, crc := 0, unknownField2 := 0, mftOffset := 40, mftSize := 0, flags := 0 },
    mftHeader :=
    { identifier := mftMagic, unknown := 0, numEntries := 3,
      unknownField2 := 0, unknownField3 := 0 },
    mftData :=
    [ { offset := 100, size := 8, compressionFlag := 0, entryFlag := 0, counter := 0, crc := 0 },
      { offset := 200, size := 32, compressionFlag := 0, entryFlag := 0, counter := 1, crc := 0 },
      { offset := 300, size := 16, compressionFlag := 1, entryFlag := 0, counter := 2, crc := 0 } ],
    mftIndexData :=
    [ { fileID := 10, baseID := 2 },
      { fileID := 10, baseID := 3 },
      { fileID := 11, baseID := 0 },
      { fileID := 12, baseID := 9 } ] }

/-- A concrete well-formed 112-byte archive image: MFT at offset 40 with
valid magic and `NumEntries = 2`; entry 1 has size 0, so the index table is
empty. -/
def exGoodArchive : List Nat :=
  [1, 65, 78, 26, 40, 0, 0, 0, 0, 0, 0, 0, 0, 0, 0, 0, 0, 0, 0, 0, 0, 0, 0, 0,
   40, 0, 0, 0, 0, 0, 0, 0, 0, 0, 0, 0, 0, 0, 0, 0] ++
  [0x4D, 0x66, 0x74, 0x1A, 0, 0, 0, 0, 0, 0, 0, 0, 2, 0, 0, 0, 0, 0, 0, 0, 0, 0, 0, 0] ++
  List.replicate 48 0

/-- The same archive image with `NumEntries = 1`: valid magic, but MFT entry
index 1 does not exist. -/
def exBadArchive : List Nat :=
  [1, 65, 78, 26, 40, 0, 0, 0, 0, 0, 0, 0, 0, 0, 0, 0, 0, 0, 0, 0, 0, 0, 0, 0,
   40, 0, 0, 0, 0, 0, 0, 0, 0, 0, 0, 0, 0, 0, 0, 0] ++
  [0x4D, 0x66, 0x74, 0x1A, 0, 0, 0, 0, 0, 0, 0, 0, 1, 0, 0, 0, 0, 0, 0, 0, 0, 0, 0, 0] ++
  List.replicate 24 0

/-! ## Supporting lemmas -/

/-- `M32` is `2^32`. -/
theorem M32_eq : M32 = 2 ^ 32 := rfl

/-- Well-formedness of a bit-pump state: the registers and the input words
fit in 32 bits (automatic in Go, where they are `uint32`). -/
def WfState (s : State) : Prop :=
  s.head < M32 ∧ s.buffer < M32 ∧ ∀ w ∈ s.inputData, w < M32

/-- `shl32` always produces a 32-bit value. -/
theorem shl32_lt (a k : Nat) : shl32 a k < M32 := by
  unfold shl32
  split
  · simp [M32]
  · exact Nat.mod_lt _ (by norm_num [M32])

/-- Bitwise or of 32-bit values is a 32-bit value. -/
theorem or_lt_M32 {a b : Nat} (ha : a < M32) (hb : b < M32) : a ||| b < M32 := by
  rw [M32_eq] at *
  exact Nat.or_lt_two_pow ha hb

/-- A list element read in bounds inherits a pointwise bound. -/
theorem getD_lt_of_forall {l : List Nat} {p : Nat} (hw : ∀ w ∈ l, w < M32)
    (hp : p < l.length) : l.getD p 0 < M32 := by
  rw [List.getD_eq_getElem l 0 hp]
  exact hw _ (List.getElem_mem hp)

/-- `pullByte` preserves state well-formedness. -/
theorem pullByte_wf {s s' : State} (hs : WfState s) (h : pullByte s = .ok s') :
    WfState s' := by
  obtain ⟨hh, hb, hw⟩ := hs
  unfold pullByte at h
  repeat' split at h
  any_goals cases h
  · exact ⟨getD_lt_of_forall hw (by omega), by simp [M32], hw⟩
  · have ht : s.inputData.getD (advanceCursor s.inputPosition) 0 < M32 :=
      getD_lt_of_forall hw (by omega)
    have hsh : s.inputData.getD (advanceCursor s.inputPosition) 0 >>> s.bits
        ≤ s.inputData.getD (advanceCursor s.inputPosition) 0 := by
      rw [Nat.shiftRight_eq_div_pow]
      exact Nat.div_le_self _ _
    exact ⟨or_lt_M32 hh (Nat.lt_of_le_of_lt hsh ht), shl32_lt _ _, hw⟩

/-- `needBits` preserves state well-formedness. -/
theorem needBits_wf {s s' : State} {k : Nat} (hs : WfState s) (h : needBits s k = .ok s') :
    WfState s' := by
  unfold needBits at h
  split at h
  · cases h
  · split at h
    · exact pullByte_wf hs h
    · cases h
      exact hs

/-- Peeking `k ≤ 32` bits of a well-formed head yields a value below `2^k`. -/
theorem readBits_lt {s : State} {k : Nat} (hh : s.head < M32) (hk : k ≤ 32) :
    readBits s k < 2 ^ k := by
  unfold readBits
  rw [if_pos hk, Nat.shiftRight_eq_div_pow]
  rw [Nat.div_lt_iff_lt_mul (Nat.pos_pow_of_pos _ (by norm_num))]
  calc s.head < M32 := hh
    _ = 2 ^ 32 := M32_eq
    _ ≤ 2 ^ k * 2 ^ (32 - k) := by
        rw [← pow_add]
        exact Nat.pow_le_pow_right (by norm_num) (by omega)

/-- Claim C1 (amended): at every copy the distance is at least 1 (the source
adds 1 to the decoded offset and the sum cannot wrap to 0, because the
offset is below `2^17`), but `dist ≤ out_pos` is NOT checked: when
`dist > out_pos` at the start of a positive-length copy, the source index
`out_pos − dist` wraps around `2^32` to a value at or beyond the allocation
(for any allocation with `alloc + dist ≤ 2^32 + out_pos`), and the copy is a
slice-index panic — a crash of the process, not a returned Malformed error
and not a discarded partial output. -/
theorem C1_amended :
    (∀ s s' v d, WfState s → writeOffsetStep s v = .ok (s', d) → 1 ≤ d) ∧
    (∀ fuel rev alloc d len, 0 < fuel → 0 < len → rev.length < alloc → rev.length < d →
      d < M32 → alloc + d ≤ M32 + rev.length →
      copyLoop fuel 0 len d alloc rev = .error (.crash .indexOutOfRange)) := by
  constructor
  · intro s s' v d hs h
    have hadd : ∀ w : Nat, w < 2 ^ 17 → 1 ≤ add32 w 1 := by
      intro w hw
      unfold add32
      rw [Nat.mod_eq_of_lt (by unfold M32 ; omega)]
      omega
    have hbase : ∀ u' : Nat, ((1 <<< u') * (2 + v % 2)) % 65536 < 2 ^ 17 := by
      intro u'
      have h1 : ((1 <<< u') * (2 + v % 2)) % 65536 < 65536 :=
        Nat.mod_lt _ (by norm_num)
      omega
    unfold writeOffsetStep at h
    by_cases hu0 : v / 2 = 0
    · rw [if_pos hu0] at h
      simp only [bind, Except.bind] at h
      rw [if_neg (by omega)] at h
      injection h with h2
      have hd : d = add32 v 1 := congrArg Prod.snd h2.symm
      subst hd
      exact hadd v (by omega)
    · by_cases hu17 : v / 2 < 17
      · rw [if_neg hu0, if_pos hu17] at h
        simp only [bind, Except.bind] at h
        by_cases hgt : v / 2 > 1
        · rw [if_pos hgt] at h
          cases hnb : needBits s (v / 2 - 1) with
          | error e =>
            rw [hnb] at h
            cases h
          | ok s₁ =>
            rw [hnb] at h
            simp only [bind, Except.bind] at h
            cases hdb : dropBits s₁ (v / 2 - 1) with
            | error e =>
              rw [hdb] at h
              cases h
            | ok s₂ =>
              rw [hdb] at h
              injection h with h2
              have hd : d = add32 (((1 <<< (v / 2 - 1)) * (2 + v % 2)) % 65536 |||
                  readBits s₁ (v / 2 - 1)) 1 := congrArg Prod.snd h2.symm
              have hwf₁ : WfState s₁ := needBits_wf hs hnb
              have hrb : readBits s₁ (v / 2 - 1) < 2 ^ 17 := by
                have := readBits_lt (k := v / 2 - 1) hwf₁.1 (by omega)
                exact Nat.lt_of_lt_of_le this (Nat.pow_le_pow_right (by norm_num) (by omega))
              have hor : (((1 <<< (v / 2 - 1)) * (2 + v % 2)) % 65536 |||
                  readBits s₁ (v / 2 - 1)) < 2 ^ 17 := Nat.or_lt_two_pow (hbase _) hrb
              subst hd
              exact hadd _ hor
        · rw [if_neg hgt] at h
          injection h with h2
          have hd : d = add32 (((1 <<< (v / 2 - 1)) * (2 + v % 2)) % 65536) 1 :=
            congrArg Prod.snd h2.symm
          subst hd
          exact hadd _ (hbase _)
      · rw [if_neg hu0, if_neg hu17] at h
        simp only [bind, Except.bind] at h
        cases h
  · intro fuel rev alloc d len hf hlen hra hrd hdm hle
    obtain ⟨f, rfl⟩ : ∃ f, fuel = f + 1 := ⟨fuel - 1, by omega⟩
    unfold copyLoop
    rw [if_pos ⟨hlen, hra⟩]
    rw [Nat.mod_eq_of_lt hdm, Nat.mod_eq_of_lt (by omega), if_neg (by omega)]

/-- Claim C1 counterexample: a concrete stream whose first decoded code is
a copy with `dist = 1 > out_pos = 0`.  The inflate call ends in an
index-out-of-range panic (a crash), not in a returned Malformed error as
the claim states. -/
theorem C1_counterexample :
    inflateBuffer exC1input 0 0 100000 = .error (.crash .indexOutOfRange) := by decide

/-- Claim C1 witness: the amended theorem applied at concrete inputs — a
distance decode yielding `d = 1 ≥ 1`, and a copy with `dist = 1` at
position 0 in a 1-byte allocation panicking. -/
theorem C1_amended_witness :
    writeOffsetStep exC4state 0 = .ok (exC4state, 1) ∧ (1 : Nat) ≤ 1 ∧
    copyLoop 1 0 1 1 1 [] = .error (.crash .indexOutOfRange) := by
  have hws : writeOffsetStep exC4state 0 = .ok (exC4state, 1) := by decide
  refine ⟨hws, ?_, ?_⟩
  · exact C1_amended.1 exC4state exC4state 0 1
      ⟨by norm_num [exC4state, M32], by norm_num [exC4state, M32], by simp [exC4state]⟩ hws
  · exact C1_amended.2 1 [] 1 1 1 (by norm_num) (by norm_num) (by simp) (by simp)
      (by norm_num [M32]) (by simp [M32])

/-- Claim C5 (amended): the cursor-advance rule is exactly as the claim
says — one extra increment when `(p + 1) % 0x4000 == 0` — but the word this
skips is `W[p]` with `p ≡ 0x3FFF (mod 0x4000)`, the LAST word of the block;
the word delivered at a boundary pull is `W[p + 1]`, the first word after
the boundary (the claim instead says the word after the first block is
never delivered). -/
theorem C5_amended :
    (∀ p : Nat, (p + 1) % BlockSize = 0 → advanceCursor p = p + 1) ∧
    (∀ p : Nat, (p + 1) % BlockSize ≠ 0 → advanceCursor p = p) ∧
    (∀ s s', s.bits < 32 → pullByte s = .ok s' →
      s'.head = (if s.bits = 0
        then s.inputData.getD (advanceCursor s.inputPosition) 0
        else s.head ||| (s.inputData.getD (advanceCursor s.inputPosition) 0 >>> s.bits)) ∧
      s'.inputPosition = advanceCursor s.inputPosition + 1) := by
  refine ⟨fun p hp => if_pos hp, fun p hp => if_neg hp, fun s s' hb h => ?_⟩
  unfold pullByte at h
  rw [if_neg (by omega)] at h
  split at h
  · cases h
  · split at h
    · cases h
    · split at h <;> rename_i hz <;> injection h with h2 <;> subst h2 <;>
        exact ⟨by simp [hz], rfl⟩

/-- The state `pullByte` produces from `exC5state`: the boundary skip jumps
the cursor from 0x3FFF over the last word of the block to 0x4000, delivering
the word 9 stored there. -/
def exC5afterPull : State :=
  { exC5state with head := 9, bits := 32, inputPosition := 16385 }

/-- The length of the C5 word stream. -/
theorem exC5words_length : exC5words.length = 16385 := by
  unfold exC5words
  rw [List.length_set, List.length_set, List.length_replicate]

/-- The two words around the boundary of the C5 stream. -/
theorem exC5words_getD :
    exC5words.getD 16383 0 = 7 ∧ exC5words.getD 16384 0 = 9 := by
  constructor
  · rw [show exC5words = ((List.replicate 16385 (0 : Nat)).set 16383 7).set 16384 9 from rfl]
    rw [List.getD_eq_getElem?_getD, List.getElem?_set_ne (by omega),
      List.getElem?_set_self (by rw [List.length_replicate] ; omega)]
    rfl
  · rw [show exC5words = ((List.replicate 16385 (0 : Nat)).set 16383 7).set 16384 9 from rfl]
    rw [List.getD_eq_getElem?_getD,
      List.getElem?_set_self (by rw [List.length_set, List.length_replicate] ; omega)]
    rfl

/-- Evaluating the boundary pull of C5 symbolically. -/
theorem pullByte_exC5 : pullByte exC5state = .ok exC5afterPull := by
  have hadv : advanceCursor 16383 = 16384 := by decide
  unfold pullByte
  rw [show exC5state.bits = 0 from rfl]
  rw [show exC5state.inputPosition = 16383 from rfl]
  rw [show exC5state.inputSize = 16385 from rfl]
  rw [show exC5state.inputData = exC5words from rfl]
  rw [hadv, exC5words_length]
  rw [if_neg (by omega), if_neg (by omega), if_neg (by omega), if_pos rfl]
  rw [exC5words_getD.2]
  rfl

/-- Claim C5 counterexample: at the first block boundary the pull delivers
the word at index 0x4000 (value 9, the 0x4001st word — the one the claim
says is never delivered) and skips the word at index 0x3FFF (value 7). -/
theorem C5_counterexample :
    exC5words.getD 16383 0 = 7 ∧ exC5words.getD 16384 0 = 9 ∧
    pullByte exC5state = .ok exC5afterPull :=
  ⟨exC5words_getD.1, exC5words_getD.2, pullByte_exC5⟩

/-- Claim C5 witness: the amended theorem applied at the concrete boundary
state. -/
theorem C5_amended_witness :
    pullByte exC5state = .ok exC5afterPull ∧
    exC5afterPull.inputPosition = advanceCursor exC5state.inputPosition + 1 ∧
    advanceCursor 16383 = 16384 :=
  ⟨pullByte_exC5,
    (C5_amended.2.2 exC5state exC5afterPull (by norm_num [exC5state]) pullByte_exC5).2,
    C5_amended.1 16383 (by norm_num [BlockSize])⟩

/-- The match predicate of the index-table scan: `FileID` for a FileID
lookup, `BaseID` otherwise. -/
def idxPred (number : Nat) (isFileID : Bool) : MFTIndexData → Bool :=
  fun e => if isFileID then e.fileID == number else e.baseID == number

/-- The source's scan loop returns the `BaseID` of the first record matching
the lookup key, `-1` when none matches. -/
theorem findIndexLoop_eq_find? (l : List MFTIndexData) (number : Nat) (isFileID : Bool) :
    findIndexLoop l number isFileID =
      match l.find? (idxPred number isFileID) with
      | some e => (e.baseID : Int)
      | none => -1 := by
  induction l with
  | nil => simp [findIndexLoop]
  | cons e rest ih =>
    cases isFileID with
    | false =>
      by_cases h : e.baseID = number
      · simp [findIndexLoop, idxPred, h, List.find?_cons_of_pos]
      · rw [findIndexLoop, if_neg (by simp), if_neg (by simp [h]), ih,
          List.find?_cons_of_neg _ (by simp [idxPred, h])]
    | true =>
      by_cases h : e.fileID = number
      · simp [findIndexLoop, idxPred, h, List.find?_cons_of_pos]
      · rw [findIndexLoop, if_neg (by simp [h]), if_neg (by simp), ih,
          List.find?_cons_of_neg _ (by simp [idxPred, h])]

/-- Claim C7: extraction scans the index table in stored order; the first
record matching the key (by `FileID` or `BaseID` according to the lookup
kind) supplies `BaseID`, and the resolved entry is `MFTData[BaseID − 1]`
(1-based); when no record matches, the scan falls through to the returned
NotFound error and no entry is read. -/
theorem C7_resolution (df : DatFile) (number : Nat) (isFileID : Bool) :
    (df.mftIndexData.find? (idxPred number isFileID) = none →
      resolveMFTEntry df number isFileID = .error (.err .notFound)) ∧
    (∀ rec, df.mftIndexData.find? (idxPred number isFileID) = some rec →
      1 ≤ rec.baseID → rec.baseID ≤ df.mftData.length →
      resolveMFTEntry df number isFileID = .ok (df.mftData.getD (rec.baseID - 1) default)) := by
  constructor
  · intro hnone
    have hidx : findIndexLoop df.mftIndexData number isFileID = -1 := by
      rw [findIndexLoop_eq_find?, hnone]
    simp only [resolveMFTEntry, hidx, if_pos]
  · intro rec hrec h1 h2
    have hidx : findIndexLoop df.mftIndexData number isFileID = (rec.baseID : Int) := by
      rw [findIndexLoop_eq_find?, hrec]
    simp only [resolveMFTEntry, hidx]
    rw [if_neg (by omega), if_pos (by constructor <;> omega)]
    rw [show ((rec.baseID : Int) - 1).toNat = rec.baseID - 1 from by omega]

/-- Claim C7 witness: applied at the concrete archive — the duplicated
FileID 10 resolves through its FIRST record (`BaseID = 2`, entry index 1),
and a missing key yields NotFound. -/
theorem C7_witness :
    resolveMFTEntry exDatFile 10 true =
      .ok { offset := 200, size := 32, compressionFlag := 0, entryFlag := 0,
            counter := 1, crc := 0 } ∧
    resolveMFTEntry exDatFile 99 true = .error (.err .notFound) := by
  constructor
  · have h := (C7_resolution exDatFile 10 true).2 { fileID := 10, baseID := 2 }
      (by decide) (by norm_num) (by norm_num [exDatFile])
    exact h.trans (by norm_num [exDatFile])
  · exact (C7_resolution exDatFile 99 true).1 (by decide)

/-- Claim C8 (amended): when the first matching record has `BaseID = 0` or
`BaseID − 1 ≥ NumEntries`, the source performs no CorruptIndex check — the
access `MFTData[index−1]` is out of bounds and the process panics; no error
value is returned. -/
theorem C8_amended (df : DatFile) (number : Nat) (isFileID : Bool) (rec : MFTIndexData)
    (hfind : df.mftIndexData.find? (idxPred number isFileID) = some rec)
    (hbad : rec.baseID = 0 ∨ df.mftData.length < rec.baseID) :
    resolveMFTEntry df number isFileID = .error (.crash .indexOutOfRange) := by
  have hidx : findIndexLoop df.mftIndexData number isFileID = (rec.baseID : Int) := by
    rw [findIndexLoop_eq_find?, hfind]
  simp only [resolveMFTEntry, hidx]
  rw [if_neg (by omega), if_neg]
  intro hcond
  obtain ⟨hge, hlt⟩ := hcond
  rw [show ((rec.baseID : Int) - 1).toNat = rec.baseID - 1 from by omega] at hlt
  cases hbad with
  | inl h0 => omega
  | inr hbig => omega

/-- Claim C8 counterexample: a concrete lookup whose first matching record
has `BaseID = 0`; the result is an index-out-of-range crash
(`Fail.crash`), not a returned `CorruptIndex` error value — the source has
no such error at all. -/
theorem C8_counterexample :
    resolveMFTEntry exDatFile 11 true = .error (.crash .indexOutOfRange) := by decide

/-- Claim C8 witness: the amended theorem applied at the record with the
out-of-range `BaseID = 9`. -/
theorem C8_amended_witness :
    resolveMFTEntry exDatFile 12 true = .error (.crash .indexOutOfRange) :=
  C8_amended exDatFile 12 true { fileID := 12, baseID := 9 } (by decide)
    (Or.inr (by norm_num [exDatFile]))

/-- `needBits` is a no-op when enough bits are available. -/
theorem needBits_noop {s : State} {k : Nat} (h32 : k ≤ 32) (h : k ≤ s.bits) :
    needBits s k = .ok s := by
  unfold needBits
  rw [if_neg (by omega), if_neg (by omega)]

/-- `dropBits` under `k ≤ 32 ≤ bits` always succeeds, shifting `k` bits out
of head/buffer and decreasing the availability count by exactly `k` (the
`k = 32` special case of the source produces the same state). -/
theorem dropBits_eq (s : State) (k : Nat) (h32 : k ≤ 32) (hb : k ≤ s.bits) :
    dropBits s k =
      .ok { s with
            head := (shl32 s.head k ||| (s.buffer >>> (32 - k))),
            buffer := shl32 s.buffer k,
            bits := s.bits - k } := by
  unfold dropBits
  rw [if_neg (by omega), if_neg (by omega)]
  by_cases hk : k = 32
  · subst hk
    rw [if_pos rfl]
    have hh : shl32 s.head 32 = 0 := by unfold shl32 ; rw [if_pos (by omega)]
    have hb0 : shl32 s.buffer 32 = 0 := by unfold shl32 ; rw [if_pos (by omega)]
    rw [hh, hb0]
    simp
  · rw [if_neg hk]

/-- The scan of `readCode` stops at the first class whose left-justified
minimum code is at most the peeked bits. -/
theorem scanCodes_spec : ∀ (l : List Nat) (b i c : Nat), c < l.length →
    (∀ j, j < c → b < l.getD j 0) → l.getD c 0 ≤ b →
    scanCodes l b i = .ok (i + c) := by
  intro l
  induction l with
  | nil =>
    intro b i c hc
    simp at hc
  | cons a rest ih =>
    intro b i c hc hlt hge
    cases c with
    | zero =>
      unfold scanCodes
      rw [if_neg (by simpa using hge), Nat.add_zero]
    | succ c' =>
      unfold scanCodes
      rw [if_pos (by simpa using hlt 0 (by omega)), ih b (i + 1) c' (by simpa using hc)
        (fun j hj => by simpa using hlt (j + 1) (by omega)) (by simpa using hge)]
      rw [show i + (c' + 1) = i + 1 + c' from by omega]

/-- The symbol-table index of a decode through class `c` on peeked bits `b`:
`SymOff[c] − ((b − MinCode[c]) >> (32 − BitLen[c]))` in `uint16`
arithmetic. -/
def symbolIndex (t : HuffmanTree) (b c : Nat) : Nat :=
  sub16 (t.symbolValueOffset.getD c 0)
    (((b - t.compressedCodes.getD c 0) >>> (32 - t.bitsLength.getD c 0)) % M16)

/-- Claim C4 (amended): with at least 32 bits available and a non-empty
table, `readCode` peeks `b = 32` bits and selects the smallest class `c`
with `b ≥ MinCode[c]` (the claim instead says `b < MinCode[c]`, the negated
condition — the scan moves PAST classes with `b < MinCode[c]`); it returns
`Symbols[SymOff[c] − ((b − MinCode[c]) >> (32 − BitLen[c]))]` and consumes
exactly `BitLen[c]` bits. -/
theorem C4_amended (t : HuffmanTree) (s : State) (c : Nat)
    (hbits : 32 ≤ s.bits)
    (hne : t.compressedCodes.getD 0 0 ≠ 0)
    (hc : c < t.compressedCodes.length)
    (hmin : ∀ j, j < c → readBits s 32 < t.compressedCodes.getD j 0)
    (hsel : t.compressedCodes.getD c 0 ≤ readBits s 32)
    (hlen : t.bitsLength.getD c 0 ≤ 32)
    (hidx : symbolIndex t (readBits s 32) c < t.symbolValues.length) :
    readCode t s =
      .ok ({ s with
             head := (shl32 s.head (t.bitsLength.getD c 0) |||
               (s.buffer >>> (32 - t.bitsLength.getD c 0))),
             buffer := shl32 s.buffer (t.bitsLength.getD c 0),
             bits := s.bits - t.bitsLength.getD c 0 },
        t.symbolValues.getD (symbolIndex t (readBits s 32) c) 0) := by
  unfold readCode
  rw [if_neg hne, needBits_noop (by omega) hbits]
  simp only [bind, Except.bind]
  rw [scanCodes_spec t.compressedCodes (readBits s 32) 0 c hc hmin hsel]
  simp only [Nat.zero_add, bind, Except.bind]
  rw [if_pos hlen]
  unfold symbolIndex at hidx
  rw [if_pos hidx, dropBits_eq s _ hlen (by omega)]
  simp only [bind, Except.bind]
  rfl

/-- Claim C4 counterexample: on the dictionary tree with all-ones peeked
bits, the code decodes symbol 8 through class 0 (the smallest `c` with
`b ≥ MinCode[c]`), while the claim's selection rule — the smallest `c` with
`b < MinCode[c]` — selects NO class at all. -/
theorem C4_counterexample :
    readCode huffmanTreeDict exC4state = .ok ({ exC4state with head := 4294967288, bits := 29 }, 8) ∧
    claimSelect huffmanTreeDict.compressedCodes (readBits exC4state 32) = none := by
  constructor
  · decide
  · decide

/-- Claim C4 witness: the amended theorem applied to the dictionary tree at
the all-ones state, class 0 (length 3, symbol 8). -/
theorem C4_amended_witness :
    readCode huffmanTreeDict exC4state =
      .ok ({ exC4state with head := 4294967288, bits := 29 }, 8) :=
  C4_amended huffmanTreeDict exC4state 0 (by norm_num [exC4state]) (by decide) (by decide)
    (fun j hj => absurd hj (Nat.not_lt_zero j)) (by decide) (by decide) (by decide)

/-- Claim C6 (amended): the write-size table is exactly as the claim states.
With `q = v / 4`: base length `v` when `q = 0`,
`(1 << (q−1)) * (4 + v % 4)` when `1 ≤ q ≤ 6` (for `q > 1` with exactly
`q − 1` extra bits read, ORed in), `0xFF` when `v = 28`, and the invalid
bucket otherwise (an `os.Exit(1)` abort); `S` is added in every valid case.
The write-offset table differs from the claim in the base-distance product:
with `u = v / 2` the base distance is `v` when `u = 0` and
`((1 << (u−1)) * (2 + v % 2)) mod 2^16` when `1 ≤ u ≤ 16` — the product is
computed in `uint16` and wraps, so at `u = 16` the claim's values 65536 and
98304 become 0 and 32768; for `u > 1` exactly `u − 1` extra bits are ORed
in; `u ≥ 17` is invalid; 1 is added in every valid case. -/
theorem C6_amended (s : State) (v S : Nat) :
    (v / 4 = 0 → writeSizeStep s v S = .ok (s, add32 v S)) ∧
    (v / 4 = 1 → writeSizeStep s v S = .ok (s, add32 ((1 <<< (v / 4 - 1)) * (4 + v % 4)) S)) ∧
    (2 ≤ v / 4 → v / 4 ≤ 6 →
      writeSizeStep s v S = (needBits s (v / 4 - 1)).bind (fun s₁ =>
        (dropBits s₁ (v / 4 - 1)).map (fun s₂ =>
          (s₂, add32 ((1 <<< (v / 4 - 1)) * (4 + v % 4) ||| readBits s₁ (v / 4 - 1)) S)))) ∧
    (v = 28 → writeSizeStep s v S = .ok (s, add32 0xFF S)) ∧
    (7 ≤ v / 4 → v ≠ 28 → writeSizeStep s v S = .error (.crash .exitWriteSize)) ∧
    (v / 2 = 0 → writeOffsetStep s v = .ok (s, add32 v 1)) ∧
    (v / 2 = 1 →
      writeOffsetStep s v = .ok (s, add32 (((1 <<< (v / 2 - 1)) * (2 + v % 2)) % 65536) 1)) ∧
    (2 ≤ v / 2 → v / 2 ≤ 16 →
      writeOffsetStep s v = (needBits s (v / 2 - 1)).bind (fun s₁ =>
        (dropBits s₁ (v / 2 - 1)).map (fun s₂ =>
          (s₂, add32 (((1 <<< (v / 2 - 1)) * (2 + v % 2)) % 65536 |||
            readBits s₁ (v / 2 - 1)) 1)))) ∧
    (17 ≤ v / 2 → writeOffsetStep s v = .error (.crash .exitWriteOffset)) := by
  refine ⟨?_, ?_, ?_, ?_, ?_, ?_, ?_, ?_, ?_⟩
  · intro h0
    unfold writeSizeStep
    rw [if_pos h0]
    simp only [bind, Except.bind]
    rw [if_neg (by omega)]
  · intro h1
    unfold writeSizeStep
    rw [if_neg (by omega), if_pos (by omega)]
    simp only [bind, Except.bind]
    rw [if_neg (by omega)]
  · intro h2 h6
    have hne : v ≠ 28 := by omega
    unfold writeSizeStep
    rw [if_neg (by omega), if_pos (by omega)]
    simp only [bind, Except.bind]
    rw [if_pos ⟨by omega, hne⟩]
    cases hnb : needBits s (v / 4 - 1) with
    | error e => simp [Except.bind, Except.map]
    | ok s₁ => simp only [Except.bind, Except.map, bind]
  · intro h28
    subst h28
    unfold writeSizeStep
    rw [if_neg (by omega), if_neg (by omega), if_pos rfl]
    simp only [bind, Except.bind]
    rw [if_neg (by omega)]
  · intro h7 hne
    unfold writeSizeStep
    rw [if_neg (by omega), if_neg (by omega), if_neg hne]
    simp only [bind, Except.bind]
  · intro h0
    unfold writeOffsetStep
    rw [if_pos h0]
    simp only [bind, Except.bind]
    rw [if_neg (by omega)]
  · intro h1
    unfold writeOffsetStep
    rw [if_neg (by omega), if_pos (by omega)]
    simp only [bind, Except.bind]
    rw [if_neg (by omega)]
  · intro h2 h16
    unfold writeOffsetStep
    rw [if_neg (by omega), if_pos (by omega)]
    simp only [bind, Except.bind]
    rw [if_pos (by omega)]
    cases hnb : needBits s (v / 2 - 1) with
    | error e => simp [Except.bind, Except.map]
    | ok s₁ => simp only [Except.bind, Except.map, bind]
  · intro h17
    unfold writeOffsetStep
    rw [if_neg (by omega), if_neg (by omega)]
    simp only [bind, Except.bind]

/-- Claim C6 counterexample: at distance symbol `delta = 32` (bucket
`u = 16`) the program's base distance is the `uint16`-wrapped product 0, so
with the all-ones head the decoded distance is `32767 + 1 = 32768`, while
the claim's unbounded formula `(1 << 15) * 2 = 65536` ORed with the same
extra bits and incremented gives `98304`. -/
theorem C6_counterexample :
    writeOffsetStep exC4state 32 =
      .ok ({ exC4state with head := 4294934528, bits := 17 }, 32768) ∧
    add32 ((1 <<< (32 / 2 - 1)) * (2 + 32 % 2) ||| readBits exC4state (32 / 2 - 1)) 1 =
      98304 := by decide

/-- Claim C6 witness: the amended table theorem applied at concrete codes —
a raw length (`v = 2`), the `v = 28` special case, an extra-bits length
decode (`v = 9`, one extra bit read from the all-ones head), a small
distance bucket (`v = 3`), the wrapping distance bucket (`v = 33`, base
`98304 mod 2^16 = 32768`, fifteen extra bits), and an invalid distance
bucket (`v = 40`). -/
theorem C6_amended_witness :
    writeSizeStep exC4state 2 5 = .ok (exC4state, 7) ∧
    writeSizeStep exC4state 28 1 = .ok (exC4state, 256) ∧
    writeSizeStep exC4state 9 1 = .ok ({ exC4state with head := 4294967294, bits := 31 }, 12) ∧
    writeOffsetStep exC4state 3 = .ok (exC4state, 4) ∧
    writeOffsetStep exC4state 33 =
      .ok ({ exC4state with head := 4294934528, bits := 17 }, 65536) ∧
    writeOffsetStep exC4state 40 = .error (.crash .exitWriteOffset) := by
  refine ⟨?_, ?_, ?_, ?_, ?_, ?_⟩
  · exact (C6_amended exC4state 2 5).1 (by norm_num)
  · exact (C6_amended exC4state 28 1).2.2.2.1 rfl
  · rw [(C6_amended exC4state 9 1).2.2.1 (by norm_num) (by norm_num)]
    decide
  · exact (C6_amended exC4state 3 0).2.2.2.2.2.2.1 (by norm_num)
  · rw [(C6_amended exC4state 33 0).2.2.2.2.2.2.2.1 (by norm_num) (by norm_num)]
    decide
  · exact (C6_amended exC4state 40 0).2.2.2.2.2.2.2.2 (by norm_num)

/-- The entry array `make([]MFTData, NumEntries)` filled by the read loop
has exactly `NumEntries` elements. -/
theorem readMFTEntries_length (bytes : List Nat) : ∀ (n base : Nat),
    (readMFTEntries bytes base n).length = n := by
  intro n
  induction n with
  | zero => intro base ; rfl
  | succ m ih =>
    intro base
    unfold readMFTEntries
    rw [List.length_cons, ih]

/-- Claim C10: `loadDatFile` unconditionally indexes MFT entry 1, so a
handle is returned only when the MFT header declares at least 2 entries;
for a valid magic with `NumEntries ≤ 1` the result is the out-of-bounds
index panic, not a returned error value. -/
theorem C10_open_requires_two_entries :
    (∀ bytes df, loadDatFile bytes = .ok df → 2 ≤ df.mftHeader.numEntries) ∧
    (∀ bytes, readBytesAt bytes (readLEAt bytes 24 8) 4 = mftMagic →
      readLEAt bytes (readLEAt bytes 24 8 + 12) 4 ≤ 1 →
      loadDatFile bytes = .error (.crash .indexOutOfRange)) := by
  constructor
  · intro bytes df h
    simp only [loadDatFile] at h
    split at h
    · cases h
    · split at h
      · rename_i hmagic hlt
        injection h with h2
        subst h2
        rw [readMFTEntries_length] at hlt
        simpa [MftEntryIndexNum] using hlt
      · cases h
  · intro bytes hmagic hnum
    simp only [loadDatFile]
    rw [if_neg (fun hne => hne hmagic)]
    rw [if_neg]
    rw [readMFTEntries_length]
    unfold MftEntryIndexNum
    omega

/-- The parsed form of `exGoodArchive`. -/
def exGoodDat : DatFile :=
  { header :=
    { version := 1, identifier := [65, 78, 26], headerSize := 40, unknownField := 0,
      chunkSize := 0, crc := 0, unknownField2 := 0, mftOffset := 40, mftSize := 0, flags := 0 },
    mftHeader :=
    { identifier := [77, 102, 116, 26], unknown := 0, numEntries := 2,
      unknownField2 := 0, unknownField3 := 0 },
    mftData :=
    [ { offset := 0, size := 0, compressionFlag := 0, entryFlag := 0, counter := 0, crc := 0 },
      { offset := 0, size := 0, compressionFlag := 0, entryFlag := 0, counter := 0, crc := 0 } ],
    mftIndexData := [] }

/-- Claim C10 witness: both directions at concrete archives — a valid
2-entry archive parses (so its declared entry count is at least 2), and the
1-entry archive with valid magic crashes with the index panic. -/
theorem C10_witness :
    loadDatFile exBadArchive = .error (.crash .indexOutOfRange) ∧
    2 ≤ exGoodDat.mftHeader.numEntries := by
  constructor
  · exact C10_open_requires_two_entries.2 exBadArchive (by decide) (by decide)
  · exact C10_open_requires_two_entries.1 exGoodArchive exGoodDat (by decide)

/-- Decompose a bitwise or with an even second argument into its low bit
and halves. -/
theorem or_double (a m : Nat) : a ||| (2 * m) = 2 * ((a / 2) ||| m) + a % 2 := by
  have hmod : (a ||| 2 * m) % 2 = a % 2 := by
    rcases Nat.mod_two_eq_zero_or_one a with h | h
    · rcases Nat.mod_two_eq_zero_or_one (a ||| 2 * m) with h2 | h2
      · omega
      · have := Nat.or_mod_two_eq_one.mp h2
        rcases this with h3 | h3
        · omega
        · rw [Nat.mul_mod_right] at h3
          exact absurd h3 (by norm_num)
    · rw [h]
      exact Nat.or_mod_two_eq_one.mpr (Or.inl h)
  have hdiv : (a ||| 2 * m) / 2 = a / 2 ||| m := by
    rw [Nat.or_div_two, Nat.mul_div_cancel_left m (by norm_num)]
  have := Nat.div_add_mod (a ||| 2 * m) 2
  omega

/-- A bitwise or of disjoint ranges is ordinary addition: when `a < 2^k`,
`a ||| (b <<< k) = a + b <<< k`. -/
theorem lor_shiftLeft_eq_add : ∀ (k a b : Nat), a < 2 ^ k → a ||| (b <<< k) = a + b <<< k := by
  intro k
  induction k with
  | zero =>
    intro a b ha
    obtain rfl : a = 0 := by omega
    simp
  | succ k ih =>
    intro a b ha
    rw [Nat.shiftLeft_succ, or_double]
    have ha2 : a / 2 < 2 ^ k := by
      rw [pow_succ] at ha
      omega
    rw [ih (a / 2) b ha2]
    have := Nat.div_add_mod a 2
    omega

/-- A 32-bit little-endian word built by the source's or-of-shifts equals
the weighted byte sum. -/
theorem leWord_eq_sum (b0 b1 b2 b3 : Nat) :
    ((b0 % 256) ||| ((b1 % 256) <<< 8) ||| ((b2 % 256) <<< 16) ||| ((b3 % 256) <<< 24)) =
      b0 % 256 + 256 * (b1 % 256) + 65536 * (b2 % 256) + 16777216 * (b3 % 256) := by
  have hb0 : b0 % 256 < 256 := Nat.mod_lt _ (by norm_num)
  have hb1 : b1 % 256 < 256 := Nat.mod_lt _ (by norm_num)
  have hb2 : b2 % 256 < 256 := Nat.mod_lt _ (by norm_num)
  have hs1 : (b1 % 256) <<< 8 = (b1 % 256) * 256 := by rw [Nat.shiftLeft_eq]
  have hs2 : (b2 % 256) <<< 16 = (b2 % 256) * 65536 := by rw [Nat.shiftLeft_eq]
  have hs3 : (b3 % 256) <<< 24 = (b3 % 256) * 16777216 := by rw [Nat.shiftLeft_eq]
  rw [lor_shiftLeft_eq_add 8 _ _ (by omega)]
  rw [lor_shiftLeft_eq_add 16 _ _ (by rw [hs1] ; omega)]
  rw [lor_shiftLeft_eq_add 24 _ _ (by rw [hs1, hs2] ; omega)]
  rw [hs1, hs2, hs3]
  ring

/-- Each converted word combines its four consecutive input bytes
least-significant-first. -/
theorem convertWords_getD : ∀ (l : List Nat) (i : Nat), 4 * i + 4 ≤ l.length →
    (convertWords l).getD i 0 =
      l.getD (4 * i) 0 % 256 + 256 * (l.getD (4 * i + 1) 0 % 256) +
      65536 * (l.getD (4 * i + 2) 0 % 256) + 16777216 * (l.getD (4 * i + 3) 0 % 256)
  | [], i, h => by simp at h
  | [b0], i, h => by simp at h
  | [b0, b1], i, h => by simp at h
  | [b0, b1, b2], i, h => by simp at h
  | b0 :: b1 :: b2 :: b3 :: rest, 0, h => by
    unfold convertWords
    simpa using leWord_eq_sum b0 b1 b2 b3
  | b0 :: b1 :: b2 :: b3 :: rest, i + 1, h => by
    unfold convertWords
    have hr : 4 * i + 4 ≤ rest.length := by
      simp at h
      omega
    have := convertWords_getD rest i hr
    simpa [show ∀ k, 4 * (i + 1) + k = (4 * i + k) + 4 from fun k => by omega,
      Nat.mul_add] using this

/-- Head entry of the dictionary-tree class table (used to discharge the
emptiness check of `inflateBuffer` symbolically). -/
theorem dict_head : huffmanTreeDict.compressedCodes.getD 0 0 = 2684354560 := rfl

/-- `inflateBuffer` rejects a byte count that is not a multiple of 4 with
the returned conversion error, before touching any stream content. -/
theorem inflateBuffer_mod4_err (input : List Nat) (cap custom fuel : Nat)
    (h : input.length % 4 ≠ 0) :
    inflateBuffer input cap custom fuel = .error (.err .inputNotMultipleOf4) := by
  simp only [inflateBuffer, dict_head]
  rw [if_neg (by norm_num)]
  simp only [convertU8ToU32, bind, Except.bind]
  rw [if_pos h]

/-- Claim C9: inflate accepts only inputs whose length is a multiple of 4 —
anything else is the returned conversion error regardless of content — and
an accepted input is reinterpreted as little-endian 32-bit words, four
consecutive bytes each, least-significant byte first. -/
theorem C9_input_format :
    (∀ (input : List Nat) (cap custom fuel : Nat), input.length % 4 ≠ 0 →
      inflateBuffer input cap custom fuel = .error (.err .inputNotMultipleOf4)) ∧
    (∀ (input : List Nat) (i : Nat), 4 * i + 4 ≤ input.length →
      (convertWords input).getD i 0 =
        input.getD (4 * i) 0 % 256 + 256 * (input.getD (4 * i + 1) 0 % 256) +
        65536 * (input.getD (4 * i + 2) 0 % 256) +
        16777216 * (input.getD (4 * i + 3) 0 % 256)) :=
  ⟨inflateBuffer_mod4_err, convertWords_getD⟩

/-- Claim C9 witness: a 3-byte input is rejected; the second word of an
8-byte input combines bytes 4..7 least-significant-first. -/
theorem C9_witness :
    inflateBuffer [1, 2, 3] 0 0 100 = .error (.err .inputNotMultipleOf4) ∧
    (convertWords [1, 2, 3, 4, 5, 6, 7, 8]).getD 1 0 =
      5 + 256 * 6 + 65536 * 7 + 16777216 * 8 := by
  constructor
  · exact C9_input_format.1 [1, 2, 3] 0 0 100 (by norm_num)
  · exact (C9_input_format.2 [1, 2, 3, 4, 5, 6, 7, 8] 1 (by norm_num)).trans (by norm_num)

/-- The copy loop never writes past the allocation. -/
theorem copyLoop_length : ∀ (fuel w ws wo alloc : Nat) (rev rev' : List Nat),
    copyLoop fuel w ws wo alloc rev = .ok rev' → rev.length ≤ alloc → rev'.length ≤ alloc := by
  intro fuel
  induction fuel with
  | zero =>
    intro w ws wo alloc rev rev' h
    unfold copyLoop at h
    cases h
  | succ f ih =>
    intro w ws wo alloc rev rev' h hle
    unfold copyLoop at h
    split at h
    · rename_i hcond
      dsimp only at h
      split at h
      · refine ih _ _ _ _ _ _ h ?_
        rw [List.length_cons]
        omega
      · cases h
    · injection h with h2
      subst h2
      exact hle

/-- The inner code loop never writes past the allocation. -/
theorem innerLoop_length (tSym tCpy : HuffmanTree) (S maxCount alloc : Nat) :
    ∀ (fuel count : Nat) (s : State) (rev : List Nat) (s' : State) (rev' : List Nat),
    innerLoop tSym tCpy S maxCount alloc fuel count s rev = .ok (s', rev') →
    rev.length ≤ alloc → rev'.length ≤ alloc := by
  intro fuel
  induction fuel with
  | zero =>
    intro count s rev s' rev' h
    unfold innerLoop at h
    cases h
  | succ f ih =>
    intro count s rev s' rev' h hle
    unfold innerLoop at h
    split at h
    · rename_i hcond
      dsimp only at h
      simp only [bind, Except.bind] at h
      cases hrc : readCode tSym s with
      | error e =>
        rw [hrc] at h
        cases h
      | ok p =>
        rw [hrc] at h
        obtain ⟨s₁, code⟩ := p
        dsimp only at h
        split at h
        · exact ih _ _ _ _ _ h (by rw [List.length_cons] ; omega)
        · cases hws : writeSizeStep s₁ (code - 0x100) S with
          | error e =>
            rw [hws] at h
            cases h
          | ok p2 =>
            rw [hws] at h
            obtain ⟨s₂, ws⟩ := p2
            dsimp only at h
            cases hrc2 : readCode tCpy s₂ with
            | error e =>
              rw [hrc2] at h
              cases h
            | ok p3 =>
              rw [hrc2] at h
              obtain ⟨s₃, c2⟩ := p3
              dsimp only at h
              cases hwo : writeOffsetStep s₃ c2 with
              | error e =>
                rw [hwo] at h
                cases h
              | ok p4 =>
                rw [hwo] at h
                obtain ⟨s₄, wo⟩ := p4
                dsimp only at h
                cases hcl : copyLoop f 0 ws wo alloc rev with
                | error e =>
                  rw [hcl] at h
                  cases h
                | ok rev₂ =>
                  rw [hcl] at h
                  dsimp only at h
                  exact ih _ _ _ _ _ h (copyLoop_length f 0 ws wo alloc rev rev₂ hcl hle)
    · injection h with h2
      obtain rfl : rev = rev' := congrArg Prod.snd h2
      exact hle

/-- The main loop never writes past the allocation. -/
theorem mainLoop_length (dict : HuffmanTree) (S alloc : Nat) :
    ∀ (fuel : Nat) (s : State) (rev : List Nat) (s' : State) (rev' : List Nat),
    mainLoop dict S alloc fuel s rev = .ok (s', rev') →
    rev.length ≤ alloc → rev'.length ≤ alloc := by
  intro fuel
  induction fuel with
  | zero =>
    intro s rev s' rev' h
    unfold mainLoop at h
    cases h
  | succ f ih =>
    intro s rev s' rev' h hle
    unfold mainLoop at h
    split at h
    · simp only [bind, Except.bind] at h
      cases hp1 : parseHuffmanTree dict f s with
      | error e =>
        rw [hp1] at h
        cases h
      | ok p =>
        rw [hp1] at h
        obtain ⟨s₁, tSym⟩ := p
        dsimp only at h
        cases hp2 : parseHuffmanTree dict f s₁ with
        | error e =>
          rw [hp2] at h
          cases h
        | ok p2 =>
          rw [hp2] at h
          obtain ⟨s₂, tCpy⟩ := p2
          dsimp only at h
          cases hnb : needBits s₂ 4 with
          | error e =>
            rw [hnb] at h
            cases h
          | ok s₃ =>
            rw [hnb] at h
            dsimp only at h
            cases hdb : dropBits s₃ 4 with
            | error e =>
              rw [hdb] at h
              cases h
            | ok s₄ =>
              rw [hdb] at h
              dsimp only at h
              cases hil : innerLoop tSym tCpy S ((readBits s₃ 4 + 1) <<< 12) alloc f 0 s₄ rev with
              | error e =>
                rw [hil] at h
                cases h
              | ok p5 =>
                rw [hil] at h
                obtain ⟨s₅, rev₂⟩ := p5
                dsimp only at h
                exact ih _ _ _ _ h
                  (innerLoop_length tSym tCpy S _ alloc f 0 s₄ rev s₅ rev₂ hil hle)
    · injection h with h2
      obtain rfl : rev = rev' := congrArg Prod.snd h2
      exact hle

/-- `inflateData` returns a buffer of exactly the allocated size. -/
theorem inflateData_length (dict : HuffmanTree) (s : State) (alloc fuel : Nat)
    (out : List Nat) (h : inflateData dict s alloc fuel = .ok out) :
    out.length = alloc := by
  unfold inflateData at h
  simp only [bind, Except.bind] at h
  cases h1 : needBits s 8 with
  | error e =>
    rw [h1] at h
    cases h
  | ok s₁ =>
    rw [h1] at h
    dsimp only at h
    cases h2 : dropBits s₁ 4 with
    | error e =>
      rw [h2] at h
      cases h
    | ok s₂ =>
      rw [h2] at h
      dsimp only at h
      cases h3 : dropBits s₂ 4 with
      | error e =>
        rw [h3] at h
        cases h
      | ok s₃ =>
        rw [h3] at h
        dsimp only at h
        cases h4 : mainLoop dict (readBits s₂ 4 + 1) alloc fuel s₃ [] with
        | error e =>
          rw [h4] at h
          cases h
        | ok p =>
          rw [h4] at h
          obtain ⟨s₄, rev⟩ := p
          dsimp only at h
          injection h with h5
          subst h5
          have hrev : rev.length ≤ alloc :=
            mainLoop_length dict _ alloc fuel s₃ [] s₄ rev h4 (by simp)
          rw [List.length_append, List.length_reverse, List.length_replicate]
          omega

/-- The conversion produces one word per four input bytes. -/
theorem convertWords_length : ∀ l : List Nat, (convertWords l).length = l.length / 4
  | [] => by simp [convertWords]
  | [_] => by simp [convertWords]
  | [_, _] => by simp [convertWords]
  | [_, _, _] => by simp [convertWords]
  | b0 :: b1 :: b2 :: b3 :: rest => by
    unfold convertWords
    rw [List.length_cons, convertWords_length rest]
    simp only [List.length_cons]
    omega

/-- A fresh-register pull (no bits buffered) away from a block boundary
loads the cursor's word into the head. -/
theorem pullByte_fresh (ws : List Nat) (n p : Nat) (hb : (p + 1) % BlockSize ≠ 0)
    (hp : p < ws.length) (hn : p < n) :
    pullByte { inputData := ws, inputSize := n, inputPosition := p,
               head := 0, bits := 0, buffer := 0 } =
      .ok { inputData := ws, inputSize := n, inputPosition := p + 1,
            head := ws.getD p 0, bits := 32, buffer := 0 } := by
  unfold pullByte advanceCursor
  dsimp only
  rw [if_neg hb, if_neg (by omega), if_neg (by omega), if_neg (by omega), if_pos rfl]

/-- Discarding a full register resets the head from the (empty) buffer. -/
theorem dropBits_full (ws : List Nat) (n p h : Nat) :
    dropBits { inputData := ws, inputSize := n, inputPosition := p,
               head := h, bits := 32, buffer := 0 } 32 =
      .ok { inputData := ws, inputSize := n, inputPosition := p,
            head := 0, bits := 0, buffer := 0 } := by
  unfold dropBits
  dsimp only
  rw [if_neg (by omega), if_neg (by omega), if_pos rfl]

/-- Peeking the whole register returns the head verbatim. -/
theorem readBits_full (ws : List Nat) (n p h : Nat) :
    readBits { inputData := ws, inputSize := n, inputPosition := p,
               head := h, bits := 32, buffer := 0 } 32 = h := by
  unfold readBits
  dsimp only
  rw [if_pos (by omega), Nat.sub_self, Nat.shiftRight_zero]

/-- `needBits` on a state with an empty register always pulls. -/
theorem needBits_empty (ws : List Nat) (n p k : Nat) (hk : k ≤ 32) (h0 : 0 < k) :
    needBits { inputData := ws, inputSize := n, inputPosition := p,
               head := 0, bits := 0, buffer := 0 } k =
      pullByte { inputData := ws, inputSize := n, inputPosition := p,
                 head := 0, bits := 0, buffer := 0 } := by
  unfold needBits
  dsimp only
  rw [if_neg (by omega), if_pos (by omega)]

/-- A pull at the end of the input is the fatal end-of-input abort. -/
theorem pullByte_pastEnd (ws : List Nat) (n p : Nat) (hb : (p + 1) % BlockSize ≠ 0)
    (hn : n ≤ p) :
    pullByte { inputData := ws, inputSize := n, inputPosition := p,
               head := 0, bits := 0, buffer := 0 } =
      .error (.crash .pullPastEnd) := by
  unfold pullByte advanceCursor
  dsimp only
  rw [if_neg hb, if_neg (by omega), if_pos (by omega)]

/-- `inflateBuffer` with fewer than two words of input dies pulling the
64-bit prefix. -/
theorem inflateBuffer_few_words (input : List Nat) (cap custom fuel : Nat)
    (h4 : input.length % 4 = 0) (hlt : (convertWords input).length < 2) :
    inflateBuffer input cap custom fuel = .error (.crash .pullPastEnd) := by
  simp only [inflateBuffer, dict_head]
  rw [if_neg (by norm_num)]
  simp only [convertU8ToU32]
  rw [if_neg (by omega)]
  simp only [bind, Except.bind]
  cases hcw : convertWords input with
  | nil =>
    rw [needBits_empty [] ([] : List Nat).length 0 32 (by omega) (by omega),
      pullByte_pastEnd [] ([] : List Nat).length 0 (by norm_num [BlockSize]) (by simp)]
  | cons w rest =>
    cases rest with
    | nil =>
      rw [needBits_empty [w] ([w] : List Nat).length 0 32 (by omega) (by omega),
        pullByte_fresh [w] ([w] : List Nat).length 0 (by norm_num [BlockSize]) (by simp) (by simp)]
      dsimp only
      rw [dropBits_full]
      dsimp only
      rw [show (0 : Nat) + 1 = 1 from rfl,
        needBits_empty [w] ([w] : List Nat).length 1 32 (by omega) (by omega),
        pullByte_pastEnd [w] ([w] : List Nat).length 1 (by norm_num [BlockSize]) (by simp)]
    | cons w2 rest2 =>
      rw [hcw] at hlt
      simp at hlt
      omega

/-- Unfolding `inflateBuffer` on a well-formed input: after the two prefix
pulls the bit pump sits at word 2 with empty registers, the reported size
is the cap-clamped second word, and the allocation is the custom override
when present. -/
theorem inflateBuffer_eq (input : List Nat) (cap custom fuel : Nat)
    (h4 : input.length % 4 = 0) (h2 : 2 ≤ (convertWords input).length) :
    inflateBuffer input cap custom fuel =
      (inflateData huffmanTreeDict
        { inputData := convertWords input, inputSize := (convertWords input).length,
          inputPosition := 2, head := 0, bits := 0, buffer := 0 }
        (if custom > 0 then custom
         else if cap ≠ 0 ∧ (convertWords input).getD 1 0 > cap then cap
         else (convertWords input).getD 1 0) fuel).map
        (fun out => (out, if cap ≠ 0 ∧ (convertWords input).getD 1 0 > cap then cap
          else (convertWords input).getD 1 0)) := by
  simp only [inflateBuffer, dict_head]
  rw [if_neg (by norm_num)]
  simp only [convertU8ToU32]
  rw [if_neg (by omega)]
  simp only [bind, Except.bind]
  rw [needBits_empty (convertWords input) ((convertWords input).length) 0 32 (by omega) (by omega),
    pullByte_fresh (convertWords input) ((convertWords input).length) 0
      (by norm_num [BlockSize]) (by omega) (by omega)]
  dsimp only
  rw [dropBits_full]
  dsimp only
  rw [show (0 : Nat) + 1 = 1 from rfl,
    needBits_empty (convertWords input) ((convertWords input).length) 1 32 (by omega) (by omega),
    pullByte_fresh (convertWords input) ((convertWords input).length) 1
      (by norm_num [BlockSize]) (by omega) (by omega)]
  dsimp only
  rw [readBits_full, dropBits_full]
  dsimp only
  rw [show (1 : Nat) + 1 = 2 from rfl]
  cases hid : inflateData huffmanTreeDict
      { inputData := convertWords input, inputSize := (convertWords input).length,
        inputPosition := 2, head := 0, bits := 0, buffer := 0 }
      (if custom > 0 then custom
       else if cap ≠ 0 ∧ (convertWords input).getD 1 0 > cap then cap
       else (convertWords input).getD 1 0) fuel with
  | error e => simp [Except.map]
  | ok o => simp [Except.map]

/-- Claim C2 (amended): the reported size is `U' = min(U, Cap)` for a
non-zero cap and `U` otherwise — but a non-zero `CustomSize` overrides not
only the allocation: the main loop fills the whole allocation, so the
returned buffer has `CustomSize` bytes, not `U'`. -/
theorem C2_amended (input : List Nat) (cap custom fuel : Nat) (out : List Nat) (rep : Nat)
    (h : inflateBuffer input cap custom fuel = .ok (out, rep)) :
    rep = (if cap ≠ 0 ∧ (convertWords input).getD 1 0 > cap then cap
           else (convertWords input).getD 1 0) ∧
    out.length = (if custom > 0 then custom else rep) := by
  by_cases h4 : input.length % 4 = 0
  case neg =>
    rw [inflateBuffer_mod4_err input cap custom fuel h4] at h
    cases h
  by_cases h2 : 2 ≤ (convertWords input).length
  case neg =>
    rw [inflateBuffer_few_words input cap custom fuel h4 (by omega)] at h
    cases h
  rw [inflateBuffer_eq input cap custom fuel h4 h2] at h
  cases hid : inflateData huffmanTreeDict
      { inputData := convertWords input, inputSize := (convertWords input).length,
        inputPosition := 2, head := 0, bits := 0, buffer := 0 }
      (if custom > 0 then custom
       else if cap ≠ 0 ∧ (convertWords input).getD 1 0 > cap then cap
       else (convertWords input).getD 1 0) fuel with
  | error e =>
    rw [hid] at h
    cases h
  | ok o =>
    rw [hid] at h
    simp only [Except.map] at h
    injection h with h5
    have hout : o = out := congrArg Prod.fst h5
    have hrep : (if cap ≠ 0 ∧ (convertWords input).getD 1 0 > cap then cap
        else (convertWords input).getD 1 0) = rep := congrArg Prod.snd h5
    subst hout
    refine ⟨hrep.symm, ?_⟩
    rw [inflateData_length _ _ _ _ _ hid, ← hrep]

/-- Claim C2 counterexample: on a stream declaring `U = 1` with two literal
bytes available, `CustomSize = 2` makes the main loop produce 2 bytes while
the reported size stays 1 — so a non-zero `CustomSize` does change the
number of bytes the loop produces, contrary to the claim. -/
theorem C2_counterexample :
    inflateBuffer exC2input 0 2 100000 = .ok ([65, 65], 1) ∧
    inflateBuffer exC2input 0 0 100000 = .ok ([65], 1) := by
  exact ⟨by decide, by decide⟩

/-- Claim C2 witness: the amended theorem applied at the concrete stream
with `CustomSize = 2`. -/
theorem C2_amended_witness :
    ([65, 65] : List Nat).length = 2 ∧ (1 : Nat) = (convertWords exC2input).getD 1 0 := by
  have h := C2_amended exC2input 0 2 100000 [65, 65] 1 (by decide)
  constructor
  · exact h.2.trans (by norm_num)
  · have h1 := h.1
    rw [if_neg (by simp)] at h1
    exact h1

/-- Claim C3 (amended): the 8-bit field (drop 4 bits, read 4 bits as `K`,
drop 4 bits; `S = K + 1`) is read exactly ONCE per inflate call, before the
main loop — the source-derived `inflateData` coincides with the
read-once-modelled `inflateDataReadOnceS` on all inputs — and it is read
even when the main loop runs zero iterations (`U' = 0`), where the claim's
per-iteration reading would consume nothing. -/
theorem C3_amended :
    (∀ (dict : HuffmanTree) (s : State) (alloc fuel : Nat),
      inflateData dict s alloc fuel = inflateDataReadOnceS dict s alloc fuel) ∧
    (∀ (dict : HuffmanTree) (s : State) (fuel : Nat), 0 < fuel →
      inflateData dict s 0 fuel =
        (do
          let s₁ ← needBits s 8
          let s₂ ← dropBits s₁ 4
          let _ ← dropBits s₂ 4
          Except.ok ([] : List Nat))) := by
  constructor
  · intro dict s alloc fuel
    rfl
  · intro dict s fuel hf
    obtain ⟨f, rfl⟩ : ∃ f, fuel = f + 1 := ⟨fuel - 1, by omega⟩
    unfold inflateData
    simp only [bind, Except.bind]
    cases h1 : needBits s 8 with
    | error e => rfl
    | ok s₁ =>
      dsimp only
      cases h2 : dropBits s₁ 4 with
      | error e => rfl
      | ok s₂ =>
        dsimp only
        cases h3 : dropBits s₂ 4 with
        | error e => rfl
        | ok s₃ =>
          dsimp only
          rw [show mainLoop dict (readBits s₂ 4 + 1) 0 (f + 1) s₃ [] = .ok (s₃, []) from by
            unfold mainLoop
            rw [if_neg (by simp)]]
          rfl

/-- Claim C3 counterexample: a stream that declares an uncompressed size of
0 and then ends.  The real code still reads the 8-bit field before the
(zero-iteration) main loop and dies pulling past the end of input, while
the claim-modelled per-iteration variant reads nothing and succeeds with an
empty output. -/
theorem C3_counterexample :
    inflateBuffer exC3input 0 0 100000 = .error (.crash .pullPastEnd) ∧
    inflateBufferPerIterS exC3input 0 0 100000 = .ok ([], 0) := by
  exact ⟨by decide, by decide⟩

/-- Claim C3 witness: the amended theorem applied at a concrete state with
a zero-sized output — the 8-bit prefix is consumed and the loop is not
entered. -/
theorem C3_amended_witness :
    inflateData huffmanTreeDict exC4state 0 1 = .ok [] ∧
    inflateData huffmanTreeDict exC4state 0 1 =
      inflateDataReadOnceS huffmanTreeDict exC4state 0 1 := by
  constructor
  · rw [C3_amended.2 huffmanTreeDict exC4state 1 (by omega)]
    decide
  · exact C3_amended.1 huffmanTreeDict exC4state 0 1

end Skritto
